import Mathlib

/-!
# SoftwareTimer: a shallow embedding of `SoftTimers.c`

The timer table is a fixed array of `MAX_TIMERS` slots.  Each slot packs three
fields into one 16-bit word (`TimeoutTick`): bit 15 is the active flag, bit 14
the created flag and bits 0..13 the countdown.  Machine words are natural
numbers, every store into the 16-bit field reduces modulo `2 ^ 16`.

The global state of the C file (`TimerTable`, `TimerInitCtx`) is one record,
`World`, threaded through every operation.  Calls through function pointers
(the two interrupt hooks, the timer handlers) and stores into the table are
recorded, in program order, in `World.trace`.  What a handler does to the
world is a parameter `env` of `Timer_Update`.
-/

namespace SoftTimers

/-! ## Constants -/

/-- Capacity of the table: the default of the `#ifndef MAX_TIMERS` block. -/
abbrev MAX_TIMERS : Nat := 5

/-- Bit 15 of the state word. -/
def TIMER_ACTIVE_MASK : Nat := 0x8000

/-- Bit 14 of the state word. -/
def TIMER_CREATED_MASK : Nat := 0x4000

/-- Bits 15 and 14 of the state word (the identifier is spelled as in the source). -/
def TIMER_CREATED_AND_ACTIVE_AMSK : Nat := 0xC000

/-- Bits 0..13 of the state word. -/
def TIMER_TIMEOUT_MASK : Nat := 0x3FFF

/-- Modelled from the spec: `ERR_TIMER_NOT_AVAILABLE` is declared in
`SoftTimers.h`, which is not among the sources.  The specification says
the exhaustion sentinel is a return value equal to the configured capacity. -/
def ERR_TIMER_NOT_AVAILABLE : Nat := MAX_TIMERS

/-- Number of values of a `uint16_t`. -/
def UINT16_MOD : Nat := 65536

/-- The operand `~TIMER_ACTIVE_MASK`, as it acts on a 16-bit word. -/
def NOT_TIMER_ACTIVE_MASK : Nat := 0xFFFF - TIMER_ACTIVE_MASK

/-! ## Data model -/

/-- Modelled from the spec: `stimer_t` is declared in `SoftTimers.h`, which is
not among the sources.  A slot is a 16-bit state word and a handler reference;
a function pointer is represented by its address, `0` being the null pointer. -/
structure stimer_t where
  TimeoutTick : Nat
  TimerHandler : Nat
deriving DecidableEq, Repr

/-- Modelled from the spec: `stimer_init_ctx_t` is declared in `SoftTimers.h`,
which is not among the sources.  It carries the two interrupt-masking hooks. -/
structure stimer_init_ctx_t where
  disable_irq : Nat
  enable_irq : Nat
deriving DecidableEq, Repr

/-- What the program does that is visible from outside the table. -/
inductive Event where
  /-- a call through one of the hook pointers of `TimerInitCtx` -/
  | hook (fp : Nat)
  /-- a store into `TimerTable[idx]` -/
  | store (idx : Nat)
  /-- a call `TimerHandler(arg)` through the handler pointer `fp` -/
  | handler (fp : Nat) (arg : Nat)
deriving DecidableEq, Repr

/-- The file-level state of `SoftTimers.c`, with the record of events so far.
`oob` is raised by an access to `TimerTable` outside its bounds. -/
@[ext]
structure World where
  TimerTable : Fin MAX_TIMERS → stimer_t
  TimerInitCtx : stimer_init_ctx_t
  trace : List Event
  oob : Bool

/-- Semantics of the handlers: `env fp arg w` is the world after the function
at address `fp` has run with argument `arg` from world `w`. -/
abbrev HandlerEnv : Type := Nat → Nat → World → World

/-- Handlers that leave the world as it is. -/
def inertHandlers : HandlerEnv := fun _ _ w => w

/-! ## Primitive steps -/

/-- A call through a hook pointer. -/
def callHook (fp : Nat) (w : World) : World :=
  { w with trace := w.trace ++ [Event.hook fp] }

/-- The statement `TimerTable[idx].TimeoutTick = v;` on a `uint16_t` field. -/
def storeTick (idx : Fin MAX_TIMERS) (v : Nat) (w : World) : World :=
  { w with
    TimerTable := Function.update w.TimerTable idx
      { w.TimerTable idx with TimeoutTick := v % UINT16_MOD }
    trace := w.trace ++ [Event.store idx.val] }

/-- The statement `TimerTable[idx].TimerHandler = fp;`. -/
def storeHandler (idx : Fin MAX_TIMERS) (fp : Nat) (w : World) : World :=
  { w with
    TimerTable := Function.update w.TimerTable idx
      { w.TimerTable idx with TimerHandler := fp }
    trace := w.trace ++ [Event.store idx.val] }

/-- The call `TimerTable[idx].TimerHandler(idx)`. -/
def callHandler (env : HandlerEnv) (idx : Fin MAX_TIMERS) (w : World) : World :=
  env (w.TimerTable idx).TimerHandler idx.val
    { w with trace := w.trace ++ [Event.handler (w.TimerTable idx).TimerHandler idx.val] }

/-! ## The operations -/

/-- `Timer_Init`: `memset` of the table to zero, `memcpy` of the hooks. -/
def Timer_Init (init_ctx : stimer_init_ctx_t) (w : World) : World :=
  { w with
    TimerTable := fun _ => { TimeoutTick := 0, TimerHandler := 0 }
    TimerInitCtx := init_ctx
    trace := w.trace ++ (List.range MAX_TIMERS).map Event.store }

/-- The `while` loop of `Timer_Create`, entered with the given `idx`:
advance while `idx < MAX_TIMERS` and slot `idx` has its created bit set. -/
def Timer_Create_scan (t : Fin MAX_TIMERS → stimer_t) (idx : Nat) : Nat :=
  if h : idx < MAX_TIMERS then
    if (t ⟨idx, h⟩).TimeoutTick &&& TIMER_CREATED_MASK ≠ 0 then
      Timer_Create_scan t (idx + 1)
    else idx
  else idx
termination_by MAX_TIMERS - idx

/-- `Timer_Create`: returns the id (or the sentinel) and the new world. -/
def Timer_Create (FunctionPointer : Nat) (w : World) : Nat × World :=
  let idx := Timer_Create_scan w.TimerTable 0
  if idx = MAX_TIMERS then
    (ERR_TIMER_NOT_AVAILABLE, w)
  else if h : idx < MAX_TIMERS then
    let w1 := callHook w.TimerInitCtx.disable_irq w
    let w2 := storeHandler ⟨idx, h⟩ FunctionPointer w1
    let w3 := storeTick ⟨idx, h⟩ TIMER_CREATED_MASK w2
    (idx, callHook w3.TimerInitCtx.enable_irq w3)
  else
    (idx, { w with oob := true })

/-- `Timer_Destroy`. -/
def Timer_Destroy (timerId : Nat) (w : World) : World :=
  if h : timerId < MAX_TIMERS then
    storeTick ⟨timerId, h⟩ 0 w
  else w

/-- `Timer_Start`. -/
def Timer_Start (timerId : Nat) (timeout : Nat) (w : World) : World :=
  if h : timerId < MAX_TIMERS then
    let w1 := callHook w.TimerInitCtx.disable_irq w
    let w2 := storeTick ⟨timerId, h⟩
      ((w1.TimerTable ⟨timerId, h⟩).TimeoutTick |||
        (TIMER_ACTIVE_MASK + (timeout &&& TIMER_TIMEOUT_MASK))) w1
    callHook w2.TimerInitCtx.enable_irq w2
  else w

/-- `Timer_Stop`. -/
def Timer_Stop (timerId : Nat) (w : World) : World :=
  if h : timerId < MAX_TIMERS then
    let w1 := callHook w.TimerInitCtx.disable_irq w
    let w2 := storeTick ⟨timerId, h⟩
      ((w1.TimerTable ⟨timerId, h⟩).TimeoutTick &&& NOT_TIMER_ACTIVE_MASK) w1
    callHook w2.TimerInitCtx.enable_irq w2
  else w

/-- The body of the `for` loop of `Timer_Update` at index `idx`.  The
decrement `TimeoutTick--` of the 16-bit field is the addition of `2 ^ 16 - 1`
followed by the reduction modulo `2 ^ 16` that `storeTick` performs. -/
def Timer_Update_body (env : HandlerEnv) (idx : Fin MAX_TIMERS) (w : World) : World :=
  if (w.TimerTable idx).TimeoutTick &&& TIMER_CREATED_AND_ACTIVE_AMSK
      = TIMER_CREATED_AND_ACTIVE_AMSK then
    let w1 := storeTick idx ((w.TimerTable idx).TimeoutTick + (UINT16_MOD - 1)) w
    if (w1.TimerTable idx).TimeoutTick &&& TIMER_TIMEOUT_MASK = 0 then
      let w2 := storeTick idx ((w1.TimerTable idx).TimeoutTick &&& NOT_TIMER_ACTIVE_MASK) w1
      callHandler env idx w2
    else w1
  else w

/-- `Timer_Update`: the body runs for `idx = 0, 1, ..., MAX_TIMERS - 1`. -/
def Timer_Update (env : HandlerEnv) (w : World) : World :=
  (List.finRange MAX_TIMERS).foldl (fun acc idx => Timer_Update_body env idx acc) w

/-- `n` consecutive calls of `Timer_Update`. -/
def Timer_Update_n (env : HandlerEnv) : Nat → World → World
  | 0, w => w
  | n + 1, w => Timer_Update_n env n (Timer_Update env w)

/-! ## Observations -/

/-- The created flag of a state word. -/
def isCreated (x : Nat) : Prop := x &&& TIMER_CREATED_MASK ≠ 0

/-- The active flag of a state word. -/
def isActive (x : Nat) : Prop := x &&& TIMER_ACTIVE_MASK ≠ 0

/-- The 14 countdown bits of a state word. -/
def countdown (x : Nat) : Nat := x &&& TIMER_TIMEOUT_MASK

instance (x : Nat) : Decidable (isCreated x) := by unfold isCreated; infer_instance

instance (x : Nat) : Decidable (isActive x) := by unfold isActive; infer_instance

/-- The state word of slot `i`. -/
def tickOf (w : World) (i : Fin MAX_TIMERS) : Nat := (w.TimerTable i).TimeoutTick

/-- The handler pointer of an event that is a handler call with argument `arg`. -/
def handlerCallWith (arg : Nat) : Event → Option Nat
  | Event.handler fp a => if a = arg then some fp else none
  | _ => none

/-- The handler calls with argument `arg` recorded in a trace, in order: the
list of the function pointers called. -/
def handlerCallsFor (arg : Nat) (tr : List Event) : List Nat :=
  tr.filterMap (handlerCallWith arg)

/-- A world for examples: every slot holds `s`, hooks at addresses 1 and 2. -/
def constWorld (s : stimer_t) : World :=
  { TimerTable := fun _ => s, TimerInitCtx := ⟨1, 2⟩, trace := [], oob := false }

/-- `Timer_Create` called once for each handler of the list, in order: the
returned ids, in order, and the final world. -/
def Timer_Create_seq : List Nat → World → List Nat × World
  | [], w => ([], w)
  | fp :: fps, w =>
    ((Timer_Create fp w).1 :: (Timer_Create_seq fps (Timer_Create fp w).2).1,
      (Timer_Create_seq fps (Timer_Create fp w).2).2)

/-! ## One tick, seen from a single slot

With inert handlers the loop body of `Timer_Update` reads and writes slot
`idx` only.  The next three definitions restate that body for one state word;
`Timer_Update_body_inert` below proves that they describe it. -/

/-- Whether the body of `Timer_Update` reaches the handler call on state word `x`. -/
def expires (x : Nat) : Prop :=
  x &&& TIMER_CREATED_AND_ACTIVE_AMSK = TIMER_CREATED_AND_ACTIVE_AMSK ∧
    ((x + (UINT16_MOD - 1)) % UINT16_MOD) &&& TIMER_TIMEOUT_MASK = 0

instance (x : Nat) : Decidable (expires x) := by unfold expires; infer_instance

/-- The state word left by the body of `Timer_Update` on state word `x`. -/
def tickWord (x : Nat) : Nat :=
  if x &&& TIMER_CREATED_AND_ACTIVE_AMSK = TIMER_CREATED_AND_ACTIVE_AMSK then
    if ((x + (UINT16_MOD - 1)) % UINT16_MOD) &&& TIMER_TIMEOUT_MASK = 0 then
      (((x + (UINT16_MOD - 1)) % UINT16_MOD) &&& NOT_TIMER_ACTIVE_MASK) % UINT16_MOD
    else (x + (UINT16_MOD - 1)) % UINT16_MOD
  else x

/-- The slot left by the body of `Timer_Update`. -/
def tickSlot (s : stimer_t) : stimer_t := { s with TimeoutTick := tickWord s.TimeoutTick }

/-- The events of the body of `Timer_Update` at index `i` holding slot `s`. -/
def slotEvents (s : stimer_t) (i : Nat) : List Event :=
  if s.TimeoutTick &&& TIMER_CREATED_AND_ACTIVE_AMSK = TIMER_CREATED_AND_ACTIVE_AMSK then
    if ((s.TimeoutTick + (UINT16_MOD - 1)) % UINT16_MOD) &&& TIMER_TIMEOUT_MASK = 0 then
      [Event.store i, Event.store i, Event.handler s.TimerHandler i]
    else [Event.store i]
  else []

/-- Number of the first `n` ticks, from state word `x`, on which the slot expires. -/
def firesWithin : Nat → Nat → Nat
  | 0, _ => 0
  | n + 1, x => (if expires x then 1 else 0) + firesWithin n (tickWord x)

/-- The table has exactly its first `k` slots created. -/
def filledTo (k : Nat) (w : World) : Prop :=
  ∀ i : Fin MAX_TIMERS, (i.val < k → isCreated (tickOf w i)) ∧ (k ≤ i.val → tickOf w i = 0)

/-- Whether an event is a call through a hook pointer. -/
def isHookCall : Event → Bool
  | Event.hook _ => true
  | _ => false

/-- The handler call that an event is, as pointer and argument. -/
def handlerCallOf : Event → Option (Nat × Nat)
  | Event.handler fp a => some (fp, a)
  | _ => none

/-- The handler calls recorded in a trace, in order: pointer and argument. -/
def handlerCalls (tr : List Event) : List (Nat × Nat) := tr.filterMap handlerCallOf

/-- A state word that is created and active with countdown 1. -/
def dueNow (x : Nat) : Prop := isCreated x ∧ isActive x ∧ countdown x = 1

instance (x : Nat) : Decidable (dueNow x) := by unfold dueNow; infer_instance

/-- One call of a public operation after `Timer_Init`. -/
inductive Op where
  | create (fp : Nat)
  | destroy (timerId : Nat)
  | start (timerId : Nat) (timeout : Nat)
  | stop (timerId : Nat)
  | update
deriving DecidableEq, Repr

/-- The world after one call, handlers being inert. -/
def applyOp : Op → World → World
  | Op.create fp, w => (Timer_Create fp w).2
  | Op.destroy timerId, w => Timer_Destroy timerId w
  | Op.start timerId timeout, w => Timer_Start timerId timeout w
  | Op.stop timerId, w => Timer_Stop timerId w
  | Op.update, w => Timer_Update inertHandlers w

/-- The world after a sequence of calls, first call first. -/
def runOps : List Op → World → World
  | [], w => w
  | op :: ops, w => runOps ops (applyOp op w)

/-- A call that arms properly: any call but a `Timer_Start` with an id in
range on a slot that is not created, or one that leaves the countdown at 0. -/
def armsProperly : Op → World → Prop
  | Op.start timerId timeout, w =>
    ∀ h : timerId < MAX_TIMERS,
      isCreated (tickOf w ⟨timerId, h⟩) ∧
        countdown (tickOf w ⟨timerId, h⟩) ||| (timeout % 16384) ≠ 0
  | _, _ => True

/-- Every call of the sequence arms properly in the world it is made in. -/
def allArmProperly : List Op → World → Prop
  | [], _ => True
  | op :: ops, w => armsProperly op w ∧ allArmProperly ops (applyOp op w)

/-- A 16-bit state word whose active flag, if set, comes with the created
flag and a countdown that is not 0. -/
def wellArmed (x : Nat) : Prop :=
  x < 65536 ∧ (isActive x → isCreated x ∧ countdown x ≠ 0)

/-- Handlers that re-arm slot `i`: a handler called with argument `i` calls
`Timer_Start i T` and returns, a handler called with another argument does
nothing. -/
def rearmHandlers (i T : Nat) : HandlerEnv :=
  fun _ a w => if a = i then Timer_Start i T w else w

/-- The world in which the body of `Timer_Update` enters the handler of slot
`idx`: after the decrement, after the store that clears the active flag, the
call being recorded. -/
def handlerEntry (idx : Fin MAX_TIMERS) (w : World) : World :=
  let w1 := storeTick idx ((w.TimerTable idx).TimeoutTick + (UINT16_MOD - 1)) w
  let w2 := storeTick idx ((w1.TimerTable idx).TimeoutTick &&& NOT_TIMER_ACTIVE_MASK) w1
  { w2 with trace := w2.trace ++ [Event.handler (w2.TimerTable idx).TimerHandler idx.val] }

/-- The slot `i` after one `Timer_Update` whose handlers re-arm it with `T`. -/
def rearmSlot (T : Nat) (s : stimer_t) : stimer_t :=
  if expires s.TimeoutTick then { s with TimeoutTick := 0xC000 + T % 16384 } else tickSlot s

/-! ## Bit masks as modular arithmetic -/

theorem and_3FFF (x : Nat) : x &&& 0x3FFF = x % 16384 := by
  have h := Nat.and_pow_two_sub_one_eq_mod x 14
  simpa using h

theorem and_7FFF (x : Nat) : x &&& 0x7FFF = x % 32768 := by
  have h := Nat.and_pow_two_sub_one_eq_mod x 15
  simpa using h

theorem and_FFFF (x : Nat) : x &&& 0xFFFF = x % 65536 := by
  have h := Nat.and_pow_two_sub_one_eq_mod x 16
  simpa using h

theorem and_4000 (x : Nat) : x &&& 0x4000 = x % 32768 - x % 16384 := by
  have h := Nat.and_two_pow x 14
  rw [Nat.toNat_testBit] at h
  norm_num at h
  omega

theorem and_8000 (x : Nat) : x &&& 0x8000 = x % 65536 - x % 32768 := by
  have h := Nat.and_two_pow x 15
  rw [Nat.toNat_testBit] at h
  norm_num at h
  omega

theorem and_C000 (x : Nat) : x &&& 0xC000 = x % 65536 - x % 16384 := by
  have e : (0xC000 : Nat) = 0x8000 ||| 0x4000 := by decide
  rw [e, Nat.and_or_distrib_left, and_8000, and_4000]
  have h1 : x % 65536 - x % 32768 = 2 ^ 15 * ((x / 32768) % 2) := by omega
  have h2 : x % 32768 - x % 16384 < 2 ^ 15 := by omega
  rw [h1, ← Nat.mul_add_lt_is_or h2]
  omega

/-- The operand that `Timer_Start` ORs into the state word. -/
theorem start_operand (T : Nat) :
    TIMER_ACTIVE_MASK + (T &&& TIMER_TIMEOUT_MASK) = 0x8000 + T % 16384 := by
  simp only [TIMER_ACTIVE_MASK, TIMER_TIMEOUT_MASK, and_3FFF]

/-- AND distributes over the OR of `Timer_Start`, after the 16-bit store. -/
theorem or_mod_and (x m k : Nat) (hk : k &&& 0xFFFF = k) :
    ((x ||| m) % 65536) &&& k = (x &&& k) ||| (m &&& k) := by
  rw [← and_FFFF, Nat.and_assoc, Nat.and_comm 0xFFFF k, hk, Nat.and_comm,
    Nat.and_or_distrib_left, Nat.and_comm k x, Nat.and_comm k m]

/-! ## `Timer_Update` with inert handlers -/

/-- The loop body touches slot `idx` only, as `tickSlot` and `slotEvents` say. -/
theorem Timer_Update_body_inert (idx : Fin MAX_TIMERS) (w : World) :
    Timer_Update_body inertHandlers idx w =
      { w with
        TimerTable := Function.update w.TimerTable idx (tickSlot (w.TimerTable idx))
        trace := w.trace ++ slotEvents (w.TimerTable idx) idx.val } := by
  unfold Timer_Update_body
  by_cases h1 : (w.TimerTable idx).TimeoutTick &&& TIMER_CREATED_AND_ACTIVE_AMSK
      = TIMER_CREATED_AND_ACTIVE_AMSK
  · by_cases h2 : (((w.TimerTable idx).TimeoutTick + (UINT16_MOD - 1)) % UINT16_MOD)
        &&& TIMER_TIMEOUT_MASK = 0
    · ext1 <;>
        simp [h1, h2, storeTick, callHandler, inertHandlers, tickSlot, tickWord, slotEvents]
    · ext1 <;>
        simp [h1, h2, storeTick, callHandler, inertHandlers, tickSlot, tickWord, slotEvents]
  · ext1 <;> simp [h1, tickSlot, tickWord, slotEvents]

/-- The loop of `Timer_Update` over any duplicate-free list of indices. -/
theorem Timer_Update_fold_inert (l : List (Fin MAX_TIMERS)) (hl : l.Nodup) (w : World) :
    l.foldl (fun acc idx => Timer_Update_body inertHandlers idx acc) w =
      { w with
        TimerTable := fun i => if i ∈ l then tickSlot (w.TimerTable i) else w.TimerTable i
        trace := w.trace ++ (l.map (fun i => slotEvents (w.TimerTable i) i.val)).flatten } := by
  induction l generalizing w with
  | nil => simp
  | cons j l ih =>
    have hj : j ∉ l := (List.nodup_cons.mp hl).1
    rw [List.foldl_cons, ih (List.nodup_cons.mp hl).2, Timer_Update_body_inert]
    have hmap : l.map (fun i => slotEvents
          (Function.update w.TimerTable j (tickSlot (w.TimerTable j)) i) i.val)
        = l.map (fun i => slotEvents (w.TimerTable i) i.val) := by
      apply List.map_congr_left
      intro i hi
      have hne : i ≠ j := fun e => hj (e ▸ hi)
      simp [Function.update_noteq hne]
    ext1
    · funext i
      by_cases hij : i = j
      · subst hij
        simp [hj]
      · simp [hij, Function.update_noteq hij]
    · rfl
    · simp only [hmap, List.map_cons, List.flatten_cons, List.append_assoc]
    · rfl

/-- One call of `Timer_Update` ticks every slot and appends the events of
the slots in index order. -/
theorem Timer_Update_inert (w : World) :
    Timer_Update inertHandlers w =
      { w with
        TimerTable := fun i => tickSlot (w.TimerTable i)
        trace := w.trace ++
          ((List.finRange MAX_TIMERS).map (fun i => slotEvents (w.TimerTable i) i.val)).flatten } := by
  unfold Timer_Update
  rw [Timer_Update_fold_inert _ (List.nodup_finRange _)]
  ext1
  · funext i
    simp [List.mem_finRange]
  · rfl
  · rfl
  · rfl

/-! ## Handler calls recorded by `Timer_Update` -/

theorem handlerCallsFor_append (a : Nat) (tr1 tr2 : List Event) :
    handlerCallsFor a (tr1 ++ tr2) = handlerCallsFor a tr1 ++ handlerCallsFor a tr2 := by
  simp [handlerCallsFor, List.filterMap_append]

theorem handlerCallsFor_slotEvents (a : Nat) (s : stimer_t) (i : Nat) :
    handlerCallsFor a (slotEvents s i) =
      if i = a ∧ expires s.TimeoutTick then [s.TimerHandler] else [] := by
  unfold slotEvents expires
  by_cases h1 : s.TimeoutTick &&& TIMER_CREATED_AND_ACTIVE_AMSK = TIMER_CREATED_AND_ACTIVE_AMSK
  · by_cases h2 : ((s.TimeoutTick + (UINT16_MOD - 1)) % UINT16_MOD) &&& TIMER_TIMEOUT_MASK = 0
    · by_cases h3 : i = a <;> simp [h1, h2, h3, handlerCallsFor, handlerCallWith]
    · simp [h1, h2, handlerCallsFor, handlerCallWith]
  · simp [h1, handlerCallsFor, handlerCallWith]

theorem handlerCallsFor_loop (t : Fin MAX_TIMERS → stimer_t) (id : Fin MAX_TIMERS)
    (l : List (Fin MAX_TIMERS)) (hl : l.Nodup) :
    handlerCallsFor id.val ((l.map (fun i => slotEvents (t i) i.val)).flatten) =
      if id ∈ l ∧ expires (t id).TimeoutTick then [(t id).TimerHandler] else [] := by
  induction l with
  | nil => simp [handlerCallsFor]
  | cons j l ih =>
    have hj : j ∉ l := (List.nodup_cons.mp hl).1
    rw [List.map_cons, List.flatten_cons, handlerCallsFor_append, ih (List.nodup_cons.mp hl).2,
      handlerCallsFor_slotEvents]
    by_cases hij : id = j
    · subst hij
      simp [hj]
    · have hv : ¬ j.val = id.val := fun e => hij (Fin.ext e.symm)
      simp [hij, hv]

/-- The handler calls that one `Timer_Update` adds for slot `id`. -/
theorem handlerCallsFor_Timer_Update (w : World) (id : Fin MAX_TIMERS) :
    handlerCallsFor id.val (Timer_Update inertHandlers w).trace =
      handlerCallsFor id.val w.trace ++
        (if expires (tickOf w id) then [(w.TimerTable id).TimerHandler] else []) := by
  rw [Timer_Update_inert]
  simp only [handlerCallsFor_append, handlerCallsFor_loop _ _ _ (List.nodup_finRange _),
    List.mem_finRange, true_and, tickOf]

/-- The table, hooks, bounds flag and the handler calls for slot `id` after
`n` calls of `Timer_Update`. -/
theorem Timer_Update_n_inert (n : Nat) (w : World) (id : Fin MAX_TIMERS) :
    (Timer_Update_n inertHandlers n w).TimerTable id =
        { w.TimerTable id with TimeoutTick := tickWord^[n] (tickOf w id) } ∧
      handlerCallsFor id.val (Timer_Update_n inertHandlers n w).trace =
        handlerCallsFor id.val w.trace ++
          List.replicate (firesWithin n (tickOf w id)) (w.TimerTable id).TimerHandler ∧
      (Timer_Update_n inertHandlers n w).TimerInitCtx = w.TimerInitCtx ∧
      (Timer_Update_n inertHandlers n w).oob = w.oob := by
  induction n generalizing w with
  | zero => simp [Timer_Update_n, firesWithin, tickOf]
  | succ n ih =>
    obtain ⟨h1, h2, h3, h4⟩ := ih (Timer_Update inertHandlers w)
    have ht : tickOf (Timer_Update inertHandlers w) id = tickWord (tickOf w id) := by
      rw [Timer_Update_inert]; rfl
    have hh : ((Timer_Update inertHandlers w).TimerTable id).TimerHandler
        = (w.TimerTable id).TimerHandler := by
      rw [Timer_Update_inert]; rfl
    refine ⟨?_, ?_, ?_, ?_⟩
    · rw [Timer_Update_n, h1, ht, Function.iterate_succ_apply]
      rw [Timer_Update_inert]; rfl
    · rw [Timer_Update_n, h2, ht, hh, handlerCallsFor_Timer_Update, firesWithin,
        List.append_assoc]
      congr 1
      by_cases he : expires (tickOf w id)
      · simp only [he, if_true]
        rw [Nat.add_comm, List.replicate_succ]
        rfl
      · simp [he]
    · rw [Timer_Update_n, h3, Timer_Update_inert]
    · rw [Timer_Update_n, h4, Timer_Update_inert]

/-! ## The countdown of one state word -/

/-- A word without both flags is skipped. -/
theorem tickWord_idle (x : Nat)
    (h : x &&& TIMER_CREATED_AND_ACTIVE_AMSK ≠ TIMER_CREATED_AND_ACTIVE_AMSK) :
    tickWord x = x ∧ ¬ expires x := by
  unfold tickWord expires
  simp [h]

/-- A created, active word with countdown above 1 is decremented, no call. -/
theorem tickWord_running (c : Nat) (h1 : 1 < c) (h2 : c < 16384) :
    tickWord (0xC000 + c) = 0xC000 + (c - 1) ∧ ¬ expires (0xC000 + c) := by
  unfold tickWord expires
  simp only [TIMER_CREATED_AND_ACTIVE_AMSK, TIMER_TIMEOUT_MASK, UINT16_MOD, and_C000, and_3FFF]
  have e1 : (0xC000 + c) % 65536 - (0xC000 + c) % 16384 = 0xC000 := by omega
  have e2 : ¬ ((0xC000 + c + (65536 - 1)) % 65536 % 16384 = 0) := by omega
  rw [if_pos e1, if_neg e2]
  constructor
  · omega
  · intro h
    exact e2 h.2

/-- A created, active word with countdown 1 expires: active is cleared. -/
theorem tickWord_last : tickWord 0xC001 = 0x4000 ∧ expires 0xC001 := by
  decide

/-- A word without both flags stays as it is, whatever the number of ticks. -/
theorem tickWord_iterate_idle (n x : Nat)
    (h : x &&& TIMER_CREATED_AND_ACTIVE_AMSK ≠ TIMER_CREATED_AND_ACTIVE_AMSK) :
    tickWord^[n] x = x ∧ firesWithin n x = 0 := by
  induction n with
  | zero => simp [firesWithin]
  | succ n ih =>
    obtain ⟨e1, e2⟩ := tickWord_idle x h
    rw [Function.iterate_succ_apply, firesWithin, e1, if_neg e2]
    simpa using ih

/-- A created, active word with countdown `c` counts down without a call for
fewer than `c` ticks. -/
theorem tickWord_iterate_before (c k : Nat) (hk : k < c) (hc : c < 16384) :
    tickWord^[k] (0xC000 + c) = 0xC000 + (c - k) ∧ firesWithin k (0xC000 + c) = 0 := by
  induction k generalizing c with
  | zero => simp [firesWithin]
  | succ k ih =>
    obtain ⟨e1, e2⟩ := tickWord_running c (by omega) hc
    obtain ⟨i1, i2⟩ := ih (c - 1) (by omega) (by omega)
    rw [Function.iterate_succ_apply, firesWithin, e1, if_neg e2, i1, i2]
    constructor
    · omega
    · rfl

/-- A created, active word with countdown `c` expires on tick `c`, once. -/
theorem tickWord_iterate_expiry (c : Nat) (h0 : 0 < c) (hc : c < 16384) :
    tickWord^[c] (0xC000 + c) = 0x4000 ∧ firesWithin c (0xC000 + c) = 1 := by
  obtain ⟨k, rfl⟩ : ∃ k, c = k + 1 := ⟨c - 1, by omega⟩
  obtain ⟨i1, i2⟩ := tickWord_iterate_before (k + 1) k (by omega) hc
  have hw : 0xC000 + (k + 1 - k) = 0xC001 := by omega
  rw [hw] at i1
  constructor
  · rw [Function.iterate_succ_apply', i1]
    exact tickWord_last.1
  · have hf : ∀ n x, firesWithin (n + 1) x
        = firesWithin n x + (if expires (tickWord^[n] x) then 1 else 0) := by
      intro n
      induction n with
      | zero => intro x; simp [firesWithin]
      | succ n ihn =>
        intro x
        rw [firesWithin, ihn (tickWord x), firesWithin, Function.iterate_succ_apply]
        omega
    rw [hf, i1, i2, if_pos tickWord_last.2]

/-- After the expiry the word rests at the created flag. -/
theorem tickWord_iterate_after (c n : Nat) (h0 : 0 < c) (hc : c < 16384) :
    tickWord^[c + n] (0xC000 + c) = 0x4000 := by
  rw [Nat.add_comm, Function.iterate_add_apply, (tickWord_iterate_expiry c h0 hc).1]
  exact (tickWord_iterate_idle n 0x4000 (by decide)).1

/-! ## The scan of `Timer_Create` -/

/-- The scan stops at the first index, from `idx` on, whose created bit is
clear, or at `MAX_TIMERS` when there is none. -/
theorem Timer_Create_scan_spec (t : Fin MAX_TIMERS → stimer_t) (idx : Nat)
    (hidx : idx ≤ MAX_TIMERS) :
    idx ≤ Timer_Create_scan t idx ∧ Timer_Create_scan t idx ≤ MAX_TIMERS ∧
      (∀ j : Fin MAX_TIMERS, idx ≤ j.val → j.val < Timer_Create_scan t idx →
        isCreated (t j).TimeoutTick) ∧
      (∀ h : Timer_Create_scan t idx < MAX_TIMERS,
        ¬ isCreated (t ⟨Timer_Create_scan t idx, h⟩).TimeoutTick) := by
  induction idx using Timer_Create_scan.induct t with
  | case1 idx h hc ih =>
    obtain ⟨i1, i2, i3, i4⟩ := ih (by omega)
    have e : Timer_Create_scan t idx = Timer_Create_scan t (idx + 1) := by
      rw [Timer_Create_scan, dif_pos h, if_pos hc]
    rw [e]
    refine ⟨by omega, i2, ?_, i4⟩
    intro j hj1 hj2
    by_cases hji : j.val = idx
    · have : j = ⟨idx, h⟩ := Fin.ext hji
      rw [this]
      exact hc
    · exact i3 j (by omega) hj2
  | case2 idx h hc =>
    have e : Timer_Create_scan t idx = idx := by
      rw [Timer_Create_scan, dif_pos h, if_neg hc]
    simp only [e]
    refine ⟨le_refl _, hidx, ?_, ?_⟩
    · intro j hj1 hj2
      omega
    · intro _
      exact hc
  | case3 idx h =>
    have e : Timer_Create_scan t idx = idx := by
      rw [Timer_Create_scan, dif_neg h]
    simp only [e]
    refine ⟨le_refl _, hidx, ?_, ?_⟩
    · intro j hj1 hj2
      omega
    · intro h2
      exact absurd h2 h

/-- The scan from index 0 never passes `MAX_TIMERS`. -/
theorem Timer_Create_scan_le (t : Fin MAX_TIMERS → stimer_t) :
    Timer_Create_scan t 0 ≤ MAX_TIMERS :=
  (Timer_Create_scan_spec t 0 (Nat.zero_le _)).2.1

/-- The scan from index 0 returns `i` when slot `i` is the first not created. -/
theorem Timer_Create_scan_eq (t : Fin MAX_TIMERS → stimer_t) (i : Fin MAX_TIMERS)
    (hfree : ¬ isCreated (t i).TimeoutTick)
    (hbelow : ∀ j : Fin MAX_TIMERS, j < i → isCreated (t j).TimeoutTick) :
    Timer_Create_scan t 0 = i.val := by
  obtain ⟨_, h2, h3, h4⟩ := Timer_Create_scan_spec t 0 (Nat.zero_le _)
  rcases Nat.lt_trichotomy (Timer_Create_scan t 0) i.val with hlt | heq | hgt
  · have hb := hbelow ⟨Timer_Create_scan t 0, by omega⟩ (by exact hlt)
    exact absurd hb (h4 (by omega))
  · exact heq
  · exact absurd (h3 i (Nat.zero_le _) hgt) hfree

/-- The scan returns `MAX_TIMERS` exactly when every slot is created. -/
theorem Timer_Create_scan_full (t : Fin MAX_TIMERS → stimer_t) :
    Timer_Create_scan t 0 = MAX_TIMERS ↔ ∀ i : Fin MAX_TIMERS, isCreated (t i).TimeoutTick := by
  obtain ⟨_, h2, h3, h4⟩ := Timer_Create_scan_spec t 0 (Nat.zero_le _)
  constructor
  · intro e i
    exact h3 i (Nat.zero_le _) (by rw [e]; exact i.isLt)
  · intro hall
    by_contra hne
    have hlt : Timer_Create_scan t 0 < MAX_TIMERS := by omega
    exact h4 hlt (hall _)

/-! ## The operations as record updates -/

/-- A successful `Timer_Create`: the claiming writes, bracketed by the hooks. -/
theorem Timer_Create_of_scan (fp : Nat) (w : World) (i : Fin MAX_TIMERS)
    (hscan : Timer_Create_scan w.TimerTable 0 = i.val) :
    Timer_Create fp w =
      (i.val,
        { w with
          TimerTable := Function.update w.TimerTable i
            { TimeoutTick := TIMER_CREATED_MASK, TimerHandler := fp }
          trace := w.trace ++ [Event.hook w.TimerInitCtx.disable_irq, Event.store i.val,
            Event.store i.val, Event.hook w.TimerInitCtx.enable_irq] }) := by
  have hne : ¬ (i.val = MAX_TIMERS) := Nat.ne_of_lt i.isLt
  unfold Timer_Create
  simp only [hscan, hne, if_false, dif_pos i.isLt]
  refine Prod.ext rfl ?_
  ext1
  · funext j
    by_cases hj : j = i
    · subst hj
      simp [callHook, storeTick, storeHandler, TIMER_CREATED_MASK, UINT16_MOD]
    · simp [callHook, storeTick, storeHandler, Function.update_noteq hj]
  · rfl
  · simp [callHook, storeTick, storeHandler]
  · rfl

/-- `Timer_Create` on a table whose scan reaches `MAX_TIMERS`. -/
theorem Timer_Create_of_full (fp : Nat) (w : World)
    (hscan : Timer_Create_scan w.TimerTable 0 = MAX_TIMERS) :
    Timer_Create fp w = (ERR_TIMER_NOT_AVAILABLE, w) := by
  unfold Timer_Create
  simp only [hscan, if_true]

/-- `Timer_Destroy` with an id in range. -/
theorem Timer_Destroy_in_range (i : Fin MAX_TIMERS) (w : World) :
    Timer_Destroy i.val w =
      { w with
        TimerTable := Function.update w.TimerTable i { w.TimerTable i with TimeoutTick := 0 }
        trace := w.trace ++ [Event.store i.val] } := by
  unfold Timer_Destroy
  rw [dif_pos i.isLt]
  rfl

/-- `Timer_Start` with an id in range. -/
theorem Timer_Start_in_range (i : Fin MAX_TIMERS) (T : Nat) (w : World) :
    Timer_Start i.val T w =
      { w with
        TimerTable := Function.update w.TimerTable i
          { w.TimerTable i with
            TimeoutTick := (tickOf w i ||| (0x8000 + T % 16384)) % 65536 }
        trace := w.trace ++ [Event.hook w.TimerInitCtx.disable_irq, Event.store i.val,
          Event.hook w.TimerInitCtx.enable_irq] } := by
  unfold Timer_Start
  rw [dif_pos i.isLt]
  ext1
  · simp [callHook, storeTick, start_operand, tickOf, UINT16_MOD]
  · rfl
  · simp [callHook, storeTick]
  · rfl

/-- `Timer_Stop` with an id in range. -/
theorem Timer_Stop_in_range (i : Fin MAX_TIMERS) (w : World) :
    Timer_Stop i.val w =
      { w with
        TimerTable := Function.update w.TimerTable i
          { w.TimerTable i with TimeoutTick := tickOf w i % 32768 }
        trace := w.trace ++ [Event.hook w.TimerInitCtx.disable_irq, Event.store i.val,
          Event.hook w.TimerInitCtx.enable_irq] } := by
  unfold Timer_Stop
  rw [dif_pos i.isLt]
  have e : ∀ x : Nat, (x &&& NOT_TIMER_ACTIVE_MASK) % UINT16_MOD = x % 32768 := by
    intro x
    have h := and_7FFF x
    simp only [NOT_TIMER_ACTIVE_MASK, TIMER_ACTIVE_MASK, UINT16_MOD]
    norm_num
    rw [h]
    omega
  ext1
  · simp [callHook, storeTick, tickOf, e]
  · rfl
  · simp [callHook, storeTick]
  · rfl

/-- The flags and the countdown of a state word, as modular arithmetic. -/
theorem isCreated_iff (x : Nat) : isCreated x ↔ 16384 ≤ x % 32768 := by
  unfold isCreated
  rw [TIMER_CREATED_MASK, and_4000]
  omega

theorem isActive_iff (x : Nat) : isActive x ↔ 32768 ≤ x % 65536 := by
  unfold isActive
  rw [TIMER_ACTIVE_MASK, and_8000]
  omega

theorem countdown_eq (x : Nat) : countdown x = x % 16384 := by
  unfold countdown
  rw [TIMER_TIMEOUT_MASK, and_3FFF]

/-! ## Arming a slot -/

/-- A 16-bit word is its two flag bits plus its countdown. -/
theorem word_split (y : Nat) (hy : y < 65536) : y = (y &&& 0xC000) + (y &&& 0x3FFF) := by
  rw [and_C000, and_3FFF]
  omega

/-- The word that `Timer_Start` stores on a created slot. -/
theorem start_word_created (x t : Nat) (hx : isCreated x) (ht : t < 16384) :
    (x ||| (0x8000 + t)) % 65536 = 0xC000 + ((x % 16384) ||| t) := by
  have hy : (x ||| (0x8000 + t)) % 65536 < 65536 := Nat.mod_lt _ (by decide)
  have hflags : ((x ||| (0x8000 + t)) % 65536) &&& 0xC000 = 0xC000 := by
    rw [or_mod_and _ _ _ (by decide), and_C000 (0x8000 + t)]
    have hm : (0x8000 + t) % 65536 - (0x8000 + t) % 16384 = 0x8000 := by omega
    rw [hm, and_C000]
    rw [isCreated_iff] at hx
    have hcases : x % 65536 - x % 16384 = 0x4000 ∨ x % 65536 - x % 16384 = 0xC000 := by omega
    rcases hcases with e | e <;> rw [e] <;> decide
  have hcount : ((x ||| (0x8000 + t)) % 65536) &&& 0x3FFF = (x % 16384) ||| t := by
    rw [or_mod_and _ _ _ (by decide), and_3FFF, and_3FFF]
    have hm : (0x8000 + t) % 16384 = t := by omega
    rw [hm]
  have hsplit := word_split _ hy
  rw [hflags, hcount] at hsplit
  exact hsplit

/-- The countdown after an OR-merge is still a 14-bit value. -/
theorem or_countdown_lt (x T : Nat) : (x % 16384) ||| (T % 16384) < 16384 := by
  have h1 : x % 16384 < 2 ^ 14 := Nat.mod_lt _ (by decide)
  have h2 : T % 16384 < 2 ^ 14 := Nat.mod_lt _ (by decide)
  exact Nat.or_lt_two_pow h1 h2

/-- `Timer_Start` on a created slot leaves it created and active, the
countdown being the OR of the old countdown and the truncated timeout. -/
theorem Timer_Start_created_word (i : Fin MAX_TIMERS) (T : Nat) (w : World)
    (hc : isCreated (tickOf w i)) :
    tickOf (Timer_Start i.val T w) i = 0xC000 + ((tickOf w i % 16384) ||| (T % 16384)) := by
  rw [Timer_Start_in_range]
  simp only [tickOf, Function.update_same]
  exact start_word_created _ _ hc (Nat.mod_lt _ (by decide))

/-- `Timer_Start` records no handler call and keeps the handler of the slot. -/
theorem Timer_Start_calls (i : Fin MAX_TIMERS) (T a : Nat) (w : World) :
    handlerCallsFor a (Timer_Start i.val T w).trace = handlerCallsFor a w.trace ∧
      ((Timer_Start i.val T w).TimerTable i).TimerHandler = (w.TimerTable i).TimerHandler := by
  rw [Timer_Start_in_range]
  simp [handlerCallsFor, handlerCallWith, List.filterMap_append]

/-- A created, active slot with countdown `c > 0` has its handler called on
the `c`-th following `Timer_Update`, and on none before. -/
theorem fires_on_tick (w : World) (i : Fin MAX_TIMERS) (c : Nat) (h0 : 0 < c)
    (hc : c < 16384) (hw : tickOf w i = 0xC000 + c) :
    (∀ k, k < c → handlerCallsFor i.val (Timer_Update_n inertHandlers k w).trace =
        handlerCallsFor i.val w.trace) ∧
      handlerCallsFor i.val (Timer_Update_n inertHandlers c w).trace =
        handlerCallsFor i.val w.trace ++ [(w.TimerTable i).TimerHandler] ∧
      tickOf (Timer_Update_n inertHandlers c w) i = 0x4000 := by
  refine ⟨?_, ?_, ?_⟩
  · intro k hk
    rw [(Timer_Update_n_inert k w i).2.1, hw, (tickWord_iterate_before c k hk hc).2]
    simp
  · rw [(Timer_Update_n_inert c w i).2.1, hw, (tickWord_iterate_expiry c h0 hc).2]
    rfl
  · unfold tickOf
    rw [(Timer_Update_n_inert c w i).1, hw]
    exact (tickWord_iterate_expiry c h0 hc).1

/-! ## Filling the table -/

theorem filledTo_Timer_Init (ctx : stimer_init_ctx_t) (w : World) :
    filledTo 0 (Timer_Init ctx w) := by
  intro i
  exact ⟨fun h => absurd h (Nat.not_lt_zero _), fun _ => rfl⟩

/-- On a table with exactly the first `k < MAX_TIMERS` slots created,
`Timer_Create` returns `k` and the first `k + 1` slots are created. -/
theorem Timer_Create_filledTo (fp k : Nat) (w : World) (hk : k < MAX_TIMERS)
    (hf : filledTo k w) :
    (Timer_Create fp w).1 = k ∧ filledTo (k + 1) (Timer_Create fp w).2 := by
  have hscan : Timer_Create_scan w.TimerTable 0 = (⟨k, hk⟩ : Fin MAX_TIMERS).val := by
    apply Timer_Create_scan_eq
    · have h := (hf ⟨k, hk⟩).2 (le_refl _)
      unfold tickOf at h
      rw [h]
      decide
    · intro j hj
      exact (hf j).1 hj
  rw [Timer_Create_of_scan fp w ⟨k, hk⟩ hscan]
  refine ⟨rfl, ?_⟩
  intro i
  by_cases hik : i = ⟨k, hk⟩
  · subst hik
    simp only [tickOf, Function.update_same]
    exact ⟨fun _ => by decide, fun h => absurd h (by simp)⟩
  · have hne : i.val ≠ k := fun e => hik (Fin.ext e)
    simp only [tickOf, Function.update_noteq hik]
    exact ⟨fun h => (hf i).1 (by omega), fun h => (hf i).2 (by omega)⟩

/-- On a table with every slot created `Timer_Create` returns the sentinel
and changes nothing. -/
theorem Timer_Create_filledTo_full (fp : Nat) (w : World) (hf : filledTo MAX_TIMERS w) :
    Timer_Create fp w = (ERR_TIMER_NOT_AVAILABLE, w) := by
  apply Timer_Create_of_full
  rw [Timer_Create_scan_full]
  intro i
  exact (hf i).1 i.isLt

/-- A run of `Timer_Create` calls that fits into the free part of the table
returns consecutive ids. -/
theorem Timer_Create_seq_filledTo (fps : List Nat) (k : Nat) (w : World)
    (hf : filledTo k w) (hlen : k + fps.length ≤ MAX_TIMERS) :
    (Timer_Create_seq fps w).1 = List.range' k fps.length ∧
      filledTo (k + fps.length) (Timer_Create_seq fps w).2 := by
  induction fps generalizing k w with
  | nil => exact ⟨rfl, hf⟩
  | cons fp fps ih =>
    simp only [List.length_cons] at hlen
    obtain ⟨c1, c2⟩ := Timer_Create_filledTo fp k w (by omega) hf
    obtain ⟨i1, i2⟩ := ih (k + 1) (Timer_Create fp w).2 c2 (by omega)
    simp only [Timer_Create_seq, List.length_cons, List.range'_succ]
    refine ⟨?_, ?_⟩
    · rw [c1, i1]
    · have e : k + (fps.length + 1) = k + 1 + fps.length := by omega
      rw [e]
      exact i2

/-- Calls of `Timer_Create` for a concatenation of two handler lists. -/
theorem Timer_Create_seq_append (a b : List Nat) (w : World) :
    Timer_Create_seq (a ++ b) w =
      ((Timer_Create_seq a w).1 ++ (Timer_Create_seq b (Timer_Create_seq a w).2).1,
        (Timer_Create_seq b (Timer_Create_seq a w).2).2) := by
  induction a generalizing w with
  | nil => rfl
  | cons fp a ih =>
    rw [List.cons_append]
    simp only [Timer_Create_seq]
    rw [ih]
    rfl

/-! ## Frames -/

/-- `Timer_Create` returns at most the index of any slot that is not created. -/
theorem Timer_Create_le_of_free (h : Nat) (w : World) (i : Fin MAX_TIMERS)
    (hfree : ¬ isCreated (tickOf w i)) : (Timer_Create h w).1 ≤ i.val := by
  obtain ⟨_, _, s3, _⟩ := Timer_Create_scan_spec w.TimerTable 0 (Nat.zero_le _)
  have hle : Timer_Create_scan w.TimerTable 0 ≤ i.val := by
    by_contra hgt
    exact hfree (s3 i (Nat.zero_le _) (by omega))
  have hlt : Timer_Create_scan w.TimerTable 0 < MAX_TIMERS := by
    have := i.isLt
    omega
  rw [Timer_Create_of_scan h w ⟨_, hlt⟩ rfl]
  exact hle

/-- `Timer_Create` returns `i` when slot `i` is the first that is not created. -/
theorem Timer_Create_eq_of_first_free (h : Nat) (w : World) (i : Fin MAX_TIMERS)
    (hfree : ¬ isCreated (tickOf w i))
    (hbelow : ∀ j : Fin MAX_TIMERS, j < i → isCreated (tickOf w j)) :
    (Timer_Create h w).1 = i.val := by
  rw [Timer_Create_of_scan h w i (Timer_Create_scan_eq w.TimerTable i hfree hbelow)]

/-- A slot without both flags is left alone by any number of `Timer_Update` calls. -/
theorem Timer_Update_n_idle (n : Nat) (w : World) (i : Fin MAX_TIMERS)
    (hidle : tickOf w i &&& TIMER_CREATED_AND_ACTIVE_AMSK ≠ TIMER_CREATED_AND_ACTIVE_AMSK) :
    (Timer_Update_n inertHandlers n w).TimerTable i = w.TimerTable i ∧
      handlerCallsFor i.val (Timer_Update_n inertHandlers n w).trace =
        handlerCallsFor i.val w.trace := by
  obtain ⟨u1, u2, _, _⟩ := Timer_Update_n_inert n w i
  obtain ⟨t1, t2⟩ := tickWord_iterate_idle n (tickOf w i) hidle
  rw [u1, u2, t1, t2]
  exact ⟨rfl, by simp⟩

/-- The created flag of the word stored by `Timer_Start` is the old one. -/
theorem start_word_isCreated (x t : Nat) (ht : t < 16384) :
    isCreated ((x ||| (0x8000 + t)) % 65536) ↔ isCreated x := by
  unfold isCreated
  rw [TIMER_CREATED_MASK, or_mod_and _ _ _ (by decide), and_4000 (0x8000 + t)]
  have hm : (0x8000 + t) % 32768 - (0x8000 + t) % 16384 = 0 := by omega
  rw [hm, Nat.or_zero]

/-- The active flag of the word stored by `Timer_Start` is set. -/
theorem start_word_isActive (x t : Nat) (ht : t < 16384) :
    isActive ((x ||| (0x8000 + t)) % 65536) := by
  unfold isActive
  rw [TIMER_ACTIVE_MASK, or_mod_and _ _ _ (by decide), and_8000 (0x8000 + t), and_8000]
  have hm : (0x8000 + t) % 65536 - (0x8000 + t) % 32768 = 0x8000 := by omega
  rw [hm]
  have hcases : x % 65536 - x % 32768 = 0 ∨ x % 65536 - x % 32768 = 0x8000 := by omega
  rcases hcases with e | e <;> rw [e] <;> decide

/-- The countdown of the word stored by `Timer_Start` is the OR of the old
countdown and the truncated timeout. -/
theorem start_word_countdown (x t : Nat) (ht : t < 16384) :
    countdown ((x ||| (0x8000 + t)) % 65536) = countdown x ||| t := by
  unfold countdown
  rw [TIMER_TIMEOUT_MASK, or_mod_and _ _ _ (by decide), and_3FFF (0x8000 + t)]
  have hm : (0x8000 + t) % 16384 = t := by omega
  rw [hm]

/-- The OR-merge is not an assignment: a running slot with 5 ticks left that
is started with a timeout of 2 holds the countdown 7. -/
theorem Timer_Start_or_merge_example :
    countdown (tickOf (Timer_Start 0 2 (constWorld ⟨0xC005, 9⟩)) 0) = 7 := by
  decide

/-! ## The claims -/

/-- C1: for `id < MAX_TIMERS` and `0 < T ≤ 16383`, from a table in which slot
`id` holds the created flag only, `Timer_Start id T` followed by `T` calls of
`Timer_Update` (inert handlers) calls the handler of slot `id` exactly once:
no call with argument `id` is recorded during the first `k < T` calls, the
`T`-th call records one call of the slot's handler with argument `id`, and
after it the slot is not active and still created. -/
theorem C1_start_fires_once_on_tick_T (w : World) (id : Nat) (hid : id < MAX_TIMERS)
    (T : Nat) (hT0 : 0 < T) (hT : T ≤ 16383)
    (hfresh : tickOf w ⟨id, hid⟩ = TIMER_CREATED_MASK) :
    (∀ k, k < T →
        handlerCallsFor id (Timer_Update_n inertHandlers k (Timer_Start id T w)).trace =
          handlerCallsFor id w.trace) ∧
      handlerCallsFor id (Timer_Update_n inertHandlers T (Timer_Start id T w)).trace =
        handlerCallsFor id w.trace ++ [(w.TimerTable ⟨id, hid⟩).TimerHandler] ∧
      ¬ isActive (tickOf (Timer_Update_n inertHandlers T (Timer_Start id T w)) ⟨id, hid⟩) ∧
      isCreated (tickOf (Timer_Update_n inertHandlers T (Timer_Start id T w)) ⟨id, hid⟩) := by
  have hword : tickOf (Timer_Start id T w) ⟨id, hid⟩ = 0xC000 + T := by
    have h := Timer_Start_created_word ⟨id, hid⟩ T w (by rw [hfresh]; decide)
    rw [hfresh] at h
    have e : (TIMER_CREATED_MASK % 16384) ||| (T % 16384) = T := by
      have e1 : TIMER_CREATED_MASK % 16384 = 0 := by decide
      rw [e1, Nat.zero_or]
      omega
    rw [e] at h
    exact h
  obtain ⟨f1, f2, f3⟩ := fires_on_tick (Timer_Start id T w) ⟨id, hid⟩ T hT0 (by omega) hword
  obtain ⟨s1, s2⟩ := Timer_Start_calls ⟨id, hid⟩ T id w
  simp only [s1, s2] at f1 f2
  refine ⟨f1, f2, ?_, ?_⟩
  · rw [f3]; decide
  · rw [f3]; decide

/-- C1 at slot 2 with a timeout of 3 ticks and the handler at address 7. -/
theorem C1_start_fires_once_on_tick_T_witness :
    handlerCallsFor 2 (Timer_Update_n inertHandlers 3
      (Timer_Start 2 3 (constWorld ⟨0x4000, 7⟩))).trace = [7] :=
  (C1_start_fires_once_on_tick_T (constWorld ⟨0x4000, 7⟩) 2 (by decide) 3 (by decide)
    (by decide) rfl).2.1

/-- C2: starting from the table of `Timer_Init`, in `MAX_TIMERS + 1`
consecutive `Timer_Create` calls with any handlers, each of the first
`MAX_TIMERS` calls returns an id below `MAX_TIMERS` of a slot that was not
created before that call, these ids are pairwise distinct, and the last call
returns the exhaustion sentinel. -/
theorem C2_create_until_exhausted (ctx : stimer_init_ctx_t) (w0 : World) (fps : List Nat)
    (hlen : fps.length = MAX_TIMERS + 1) :
    (Timer_Create_seq fps (Timer_Init ctx w0)).1.length = MAX_TIMERS + 1 ∧
      (∀ k, k < MAX_TIMERS → ∃ i : Fin MAX_TIMERS,
        (Timer_Create_seq fps (Timer_Init ctx w0)).1[k]? = some i.val ∧
          ¬ isCreated (tickOf (Timer_Create_seq (fps.take k) (Timer_Init ctx w0)).2 i)) ∧
      ((Timer_Create_seq fps (Timer_Init ctx w0)).1.take MAX_TIMERS).Nodup ∧
      (Timer_Create_seq fps (Timer_Init ctx w0)).1[MAX_TIMERS]? =
        some ERR_TIMER_NOT_AVAILABLE := by
  have hsplit : fps = fps.take MAX_TIMERS ++ fps.drop MAX_TIMERS :=
    (List.take_append_drop _ _).symm
  have hlt : (fps.take MAX_TIMERS).length = MAX_TIMERS := by
    rw [List.length_take, hlen]; rfl
  obtain ⟨b, hb⟩ : ∃ b, fps.drop MAX_TIMERS = [b] := by
    have hl : (fps.drop MAX_TIMERS).length = 1 := by rw [List.length_drop, hlen]; rfl
    exact List.length_eq_one.mp hl
  obtain ⟨a1, a2⟩ := Timer_Create_seq_filledTo (fps.take MAX_TIMERS) 0 (Timer_Init ctx w0)
    (filledTo_Timer_Init ctx w0) (by rw [hlt]; decide)
  rw [hlt] at a1 a2
  have hlast : Timer_Create_seq [b] (Timer_Create_seq (fps.take MAX_TIMERS)
      (Timer_Init ctx w0)).2 = ([ERR_TIMER_NOT_AVAILABLE],
        (Timer_Create_seq (fps.take MAX_TIMERS) (Timer_Init ctx w0)).2) := by
    simp only [Timer_Create_seq]
    rw [Timer_Create_filledTo_full b _ a2]
  have hids : (Timer_Create_seq fps (Timer_Init ctx w0)).1 = [0, 1, 2, 3, 4, 5] := by
    rw [hsplit, Timer_Create_seq_append, hb, hlast, a1]
    rfl
  rw [hids]
  refine ⟨rfl, ?_, by decide, rfl⟩
  intro k hk
  have hk5 : k < 5 := hk
  have hlk : (fps.take k).length = k := by
    rw [List.length_take, hlen]
    exact Nat.min_eq_left (by omega)
  obtain ⟨_, p2⟩ := Timer_Create_seq_filledTo (fps.take k) 0 (Timer_Init ctx w0)
    (filledTo_Timer_Init ctx w0) (by rw [hlk]; omega)
  rw [hlk, Nat.zero_add] at p2
  refine ⟨⟨k, hk⟩, ?_, ?_⟩
  · interval_cases k <;> rfl
  · rw [(p2 ⟨k, hk⟩).2 (le_refl _)]
    decide

/-- C2 with the handlers at addresses 10..15, from a full table of running timers. -/
theorem C2_create_until_exhausted_witness :
    (Timer_Create_seq [10, 11, 12, 13, 14, 15]
        (Timer_Init ⟨1, 2⟩ (constWorld ⟨0xC005, 9⟩))).1[MAX_TIMERS]? =
      some ERR_TIMER_NOT_AVAILABLE :=
  (C2_create_until_exhausted ⟨1, 2⟩ (constWorld ⟨0xC005, 9⟩) [10, 11, 12, 13, 14, 15] rfl).2.2.2

/-- C3: on a table with a slot whose created flag is clear, `Timer_Create h`
returns the smallest index `i` whose created flag is clear; afterwards slot
`i` holds handler `h` and the state word made of the created flag alone
(created, not active, countdown 0), and every other slot is as before. -/
theorem C3_create_claims_first_free_slot (h : Nat) (w : World)
    (hfree : ∃ i : Fin MAX_TIMERS, ¬ isCreated (tickOf w i)) :
    ∃ i : Fin MAX_TIMERS,
      (Timer_Create h w).1 = i.val ∧
        ¬ isCreated (tickOf w i) ∧
        (∀ j : Fin MAX_TIMERS, j < i → isCreated (tickOf w j)) ∧
        (Timer_Create h w).2.TimerTable i =
          { TimeoutTick := TIMER_CREATED_MASK, TimerHandler := h } ∧
        isCreated (tickOf (Timer_Create h w).2 i) ∧
        ¬ isActive (tickOf (Timer_Create h w).2 i) ∧
        countdown (tickOf (Timer_Create h w).2 i) = 0 ∧
        (∀ j : Fin MAX_TIMERS, j ≠ i →
          (Timer_Create h w).2.TimerTable j = w.TimerTable j) := by
  obtain ⟨_, s2, s3, s4⟩ := Timer_Create_scan_spec w.TimerTable 0 (Nat.zero_le _)
  have hlt : Timer_Create_scan w.TimerTable 0 < MAX_TIMERS := by
    by_contra hge
    have e : Timer_Create_scan w.TimerTable 0 = MAX_TIMERS := by omega
    obtain ⟨i, hi⟩ := hfree
    exact hi ((Timer_Create_scan_full w.TimerTable).mp e i)
  refine ⟨⟨Timer_Create_scan w.TimerTable 0, hlt⟩, ?_⟩
  rw [Timer_Create_of_scan h w ⟨Timer_Create_scan w.TimerTable 0, hlt⟩ rfl]
  refine ⟨rfl, s4 hlt, ?_, ?_, ?_, ?_, ?_, ?_⟩
  · intro j hj
    exact s3 j (Nat.zero_le _) hj
  · simp only [Function.update_same]
  · simp only [tickOf, Function.update_same]
    decide
  · simp only [tickOf, Function.update_same]
    decide
  · simp only [tickOf, Function.update_same]
    decide
  · intro j hj
    simp only [Function.update_noteq hj]

/-- C3 on a table whose slots all hold a stale active flag and countdown. -/
theorem C3_create_claims_first_free_slot_witness :
    ∃ i : Fin MAX_TIMERS,
      (Timer_Create 7 (constWorld ⟨0x8123, 9⟩)).1 = i.val ∧
        ¬ isCreated (tickOf (constWorld ⟨0x8123, 9⟩) i) ∧
        (∀ j : Fin MAX_TIMERS, j < i → isCreated (tickOf (constWorld ⟨0x8123, 9⟩) j)) ∧
        (Timer_Create 7 (constWorld ⟨0x8123, 9⟩)).2.TimerTable i =
          { TimeoutTick := TIMER_CREATED_MASK, TimerHandler := 7 } ∧
        isCreated (tickOf (Timer_Create 7 (constWorld ⟨0x8123, 9⟩)).2 i) ∧
        ¬ isActive (tickOf (Timer_Create 7 (constWorld ⟨0x8123, 9⟩)).2 i) ∧
        countdown (tickOf (Timer_Create 7 (constWorld ⟨0x8123, 9⟩)).2 i) = 0 ∧
        (∀ j : Fin MAX_TIMERS, j ≠ i →
          (Timer_Create 7 (constWorld ⟨0x8123, 9⟩)).2.TimerTable j =
            (constWorld ⟨0x8123, 9⟩).TimerTable j) :=
  C3_create_claims_first_free_slot 7 (constWorld ⟨0x8123, 9⟩) ⟨0, by decide⟩

/-- C4: on a table whose slots are all created `Timer_Create` returns the
sentinel and leaves the world, table included, as it was; the sentinel is
`MAX_TIMERS`, every other return value is below `MAX_TIMERS`; and the sentinel
is returned only when every slot is created. -/
theorem C4_create_on_full_table (h : Nat) (w : World) :
    ((∀ i : Fin MAX_TIMERS, isCreated (tickOf w i)) →
        (Timer_Create h w).1 = ERR_TIMER_NOT_AVAILABLE ∧ (Timer_Create h w).2 = w) ∧
      ERR_TIMER_NOT_AVAILABLE = MAX_TIMERS ∧
      ((Timer_Create h w).1 ≠ ERR_TIMER_NOT_AVAILABLE → (Timer_Create h w).1 < MAX_TIMERS) ∧
      ((Timer_Create h w).1 = ERR_TIMER_NOT_AVAILABLE →
        ∀ i : Fin MAX_TIMERS, isCreated (tickOf w i)) := by
  have hcases : Timer_Create_scan w.TimerTable 0 = MAX_TIMERS ∨
      Timer_Create_scan w.TimerTable 0 < MAX_TIMERS := by
    have := Timer_Create_scan_le w.TimerTable
    omega
  refine ⟨?_, rfl, ?_, ?_⟩
  · intro hall
    rw [Timer_Create_of_full h w ((Timer_Create_scan_full w.TimerTable).mpr hall)]
    exact ⟨rfl, rfl⟩
  · intro hne
    rcases hcases with e | e
    · rw [Timer_Create_of_full h w e] at hne
      exact absurd rfl hne
    · rw [Timer_Create_of_scan h w ⟨_, e⟩ rfl]
      exact e
  · intro hret
    rcases hcases with e | e
    · exact (Timer_Create_scan_full w.TimerTable).mp e
    · rw [Timer_Create_of_scan h w ⟨_, e⟩ rfl] at hret
      have hne : Timer_Create_scan w.TimerTable 0 ≠ MAX_TIMERS := Nat.ne_of_lt e
      exact absurd hret hne

/-- C4 on the table whose five slots are created and running. -/
theorem C4_create_on_full_table_witness :
    (Timer_Create 7 (constWorld ⟨0xC005, 9⟩)).1 = ERR_TIMER_NOT_AVAILABLE ∧
      (Timer_Create 7 (constWorld ⟨0xC005, 9⟩)).2 = constWorld ⟨0xC005, 9⟩ :=
  (C4_create_on_full_table 7 (constWorld ⟨0xC005, 9⟩)).1
    (fun _ => (by decide : isCreated 0xC005))

/-- C5: for every table and every id in range, `Timer_Destroy` leaves the
state word of the slot at 0; (a) any number of following `Timer_Update` calls
record no handler call for the slot and leave its word at 0; (b) a following
`Timer_Create` returns an id not above the destroyed one, and exactly that id
when every slot below it is created. -/
theorem C5_destroy_frees_slot (w : World) (i : Fin MAX_TIMERS) (n h : Nat) :
    tickOf (Timer_Destroy i.val w) i = 0 ∧
      tickOf (Timer_Update_n inertHandlers n (Timer_Destroy i.val w)) i = 0 ∧
      handlerCallsFor i.val (Timer_Update_n inertHandlers n (Timer_Destroy i.val w)).trace =
        handlerCallsFor i.val w.trace ∧
      (Timer_Create h (Timer_Update_n inertHandlers n (Timer_Destroy i.val w))).1 ≤ i.val ∧
      ((∀ j : Fin MAX_TIMERS, j < i →
          isCreated (tickOf (Timer_Update_n inertHandlers n (Timer_Destroy i.val w)) j)) →
        (Timer_Create h (Timer_Update_n inertHandlers n (Timer_Destroy i.val w))).1 = i.val) ∧
      ((∀ j : Fin MAX_TIMERS, j < i → isCreated (tickOf w j)) →
        (Timer_Create h (Timer_Destroy i.val w)).1 = i.val) := by
  have hd : tickOf (Timer_Destroy i.val w) i = 0 := by
    rw [Timer_Destroy_in_range]
    simp only [tickOf, Function.update_same]
  have hdt : handlerCallsFor i.val (Timer_Destroy i.val w).trace
      = handlerCallsFor i.val w.trace := by
    rw [Timer_Destroy_in_range]
    simp [handlerCallsFor, handlerCallWith, List.filterMap_append]
  have hidle : tickOf (Timer_Destroy i.val w) i &&& TIMER_CREATED_AND_ACTIVE_AMSK
      ≠ TIMER_CREATED_AND_ACTIVE_AMSK := by
    rw [hd]; decide
  obtain ⟨u1, u2⟩ := Timer_Update_n_idle n (Timer_Destroy i.val w) i hidle
  have hn : tickOf (Timer_Update_n inertHandlers n (Timer_Destroy i.val w)) i = 0 := by
    unfold tickOf
    rw [u1]
    exact hd
  have hfree : ¬ isCreated (tickOf (Timer_Update_n inertHandlers n (Timer_Destroy i.val w)) i) := by
    rw [hn]; decide
  refine ⟨hd, hn, ?_, Timer_Create_le_of_free h _ i hfree, ?_, ?_⟩
  · rw [u2, hdt]
  · intro hbelow
    exact Timer_Create_eq_of_first_free h _ i hfree hbelow
  · intro hbelow
    apply Timer_Create_eq_of_first_free h _ i (by rw [hd]; decide)
    intro j hj
    have hne : j ≠ i := Fin.ne_of_lt hj
    have e : tickOf (Timer_Destroy i.val w) j = tickOf w j := by
      rw [Timer_Destroy_in_range]
      simp only [tickOf, Function.update_noteq hne]
    rw [e]
    exact hbelow j hj

/-- C5 on a full table of running timers: slot 3 is destroyed and handed out again. -/
theorem C5_destroy_frees_slot_witness :
    (Timer_Create 7 (Timer_Destroy 3 (constWorld ⟨0xC005, 9⟩))).1 = 3 :=
  (C5_destroy_frees_slot (constWorld ⟨0xC005, 9⟩) 3 0 7).2.2.2.2.2
    (fun _ _ => (by decide : isCreated 0xC005))

/-- C6: truncation law.  For every table, id and timeout `T`, `Timer_Start id T`
and `Timer_Start id (T mod 16384)` leave the same world; for an id in range the
stored word is the old word ORed with `0x8000 + T mod 16384`, so only the low
14 bits of `T` reach it, and the created flag of the slot is as before. -/
theorem C6_start_truncates_timeout (w : World) (id T : Nat) (i : Fin MAX_TIMERS) :
    Timer_Start id T w = Timer_Start id (T % 16384) w ∧
      tickOf (Timer_Start i.val T w) i = (tickOf w i ||| (0x8000 + T % 16384)) % 65536 ∧
      (isCreated (tickOf (Timer_Start i.val T w) i) ↔ isCreated (tickOf w i)) := by
  have hw : tickOf (Timer_Start i.val T w) i
      = (tickOf w i ||| (0x8000 + T % 16384)) % 65536 := by
    rw [Timer_Start_in_range]
    simp only [tickOf, Function.update_same]
  refine ⟨?_, hw, ?_⟩
  · by_cases hid : id < MAX_TIMERS
    · have e1 := Timer_Start_in_range ⟨id, hid⟩ T w
      have e2 := Timer_Start_in_range ⟨id, hid⟩ (T % 16384) w
      simp only at e1 e2
      rw [e1, e2, Nat.mod_mod]
    · unfold Timer_Start
      rw [dif_neg hid, dif_neg hid]
  · rw [hw]
    exact start_word_isCreated _ _ (Nat.mod_lt _ (by decide))

/-- C7: OR-merge of `Timer_Start`.  For an id in range whose slot holds
countdown bits `r`, after `Timer_Start id T` the active flag is set, the
created flag is as before, the countdown is `r ||| (T mod 16384)`, the handler
and every other slot are as before.  If the slot is created and that countdown
`c` is not 0, the handler of the slot is called on the `c`-th following
`Timer_Update` and on none before it. -/
theorem C7_start_or_merges_countdown (w : World) (i : Fin MAX_TIMERS) (T : Nat) :
    isActive (tickOf (Timer_Start i.val T w) i) ∧
      (isCreated (tickOf (Timer_Start i.val T w) i) ↔ isCreated (tickOf w i)) ∧
      countdown (tickOf (Timer_Start i.val T w) i) = countdown (tickOf w i) ||| (T % 16384) ∧
      ((Timer_Start i.val T w).TimerTable i).TimerHandler = (w.TimerTable i).TimerHandler ∧
      (∀ j : Fin MAX_TIMERS, j ≠ i → (Timer_Start i.val T w).TimerTable j = w.TimerTable j) ∧
      (isCreated (tickOf w i) → countdown (tickOf w i) ||| (T % 16384) ≠ 0 →
        (∀ k, k < countdown (tickOf w i) ||| (T % 16384) →
          handlerCallsFor i.val (Timer_Update_n inertHandlers k (Timer_Start i.val T w)).trace =
            handlerCallsFor i.val w.trace) ∧
        handlerCallsFor i.val (Timer_Update_n inertHandlers
            (countdown (tickOf w i) ||| (T % 16384)) (Timer_Start i.val T w)).trace =
          handlerCallsFor i.val w.trace ++ [(w.TimerTable i).TimerHandler]) := by
  have ht : T % 16384 < 16384 := Nat.mod_lt _ (by decide)
  have hw : tickOf (Timer_Start i.val T w) i
      = (tickOf w i ||| (0x8000 + T % 16384)) % 65536 := by
    rw [Timer_Start_in_range]
    simp only [tickOf, Function.update_same]
  obtain ⟨s1, s2⟩ := Timer_Start_calls i T i.val w
  refine ⟨?_, ?_, ?_, s2, ?_, ?_⟩
  · rw [hw]
    exact start_word_isActive _ _ ht
  · rw [hw]
    exact start_word_isCreated _ _ ht
  · rw [hw]
    exact start_word_countdown _ _ ht
  · intro j hj
    rw [Timer_Start_in_range]
    simp only [Function.update_noteq hj]
  · intro hc hne
    have hword := Timer_Start_created_word i T w hc
    rw [← countdown_eq] at hword
    have hlt : countdown (tickOf w i) ||| (T % 16384) < 16384 := by
      rw [countdown_eq]
      exact or_countdown_lt _ _
    obtain ⟨f1, f2, _⟩ := fires_on_tick (Timer_Start i.val T w) i _
      (Nat.pos_of_ne_zero hne) hlt hword
    simp only [s1, s2] at f1 f2
    exact ⟨f1, f2⟩

/-- C7 on a running timer with 5 ticks left that is started again with a
timeout of 2: the countdown is 7, and the handler is called on tick 7. -/
theorem C7_start_or_merges_countdown_witness :
    handlerCallsFor 0 (Timer_Update_n inertHandlers
        (countdown (tickOf (constWorld ⟨0xC005, 9⟩) 0) ||| (2 % 16384))
        (Timer_Start 0 2 (constWorld ⟨0xC005, 9⟩))).trace =
      handlerCallsFor 0 (constWorld ⟨0xC005, 9⟩).trace ++ [9] :=
  ((C7_start_or_merges_countdown (constWorld ⟨0xC005, 9⟩) 0 2).2.2.2.2.2
    (by decide) (by decide)).2

/-- C8: for an id in range `Timer_Stop` clears the active flag of the slot
and nothing else: created flag, countdown bits and handler of the slot and all
other slots are as before.  After it, any number of `Timer_Update` calls
record no handler call for the slot and leave its state word, hence its
countdown, as `Timer_Stop` left it. -/
theorem C8_stop_clears_active_only (w : World) (i : Fin MAX_TIMERS) (n : Nat) :
    ¬ isActive (tickOf (Timer_Stop i.val w) i) ∧
      (isCreated (tickOf (Timer_Stop i.val w) i) ↔ isCreated (tickOf w i)) ∧
      countdown (tickOf (Timer_Stop i.val w) i) = countdown (tickOf w i) ∧
      ((Timer_Stop i.val w).TimerTable i).TimerHandler = (w.TimerTable i).TimerHandler ∧
      (∀ j : Fin MAX_TIMERS, j ≠ i → (Timer_Stop i.val w).TimerTable j = w.TimerTable j) ∧
      handlerCallsFor i.val (Timer_Update_n inertHandlers n (Timer_Stop i.val w)).trace =
        handlerCallsFor i.val w.trace ∧
      tickOf (Timer_Update_n inertHandlers n (Timer_Stop i.val w)) i =
        tickOf (Timer_Stop i.val w) i ∧
      countdown (tickOf (Timer_Update_n inertHandlers n (Timer_Stop i.val w)) i) =
        countdown (tickOf w i) := by
  have hw : tickOf (Timer_Stop i.val w) i = tickOf w i % 32768 := by
    rw [Timer_Stop_in_range]
    simp only [tickOf, Function.update_same]
  have hcd : countdown (tickOf (Timer_Stop i.val w) i) = countdown (tickOf w i) := by
    rw [hw, countdown_eq, countdown_eq]
    omega
  have htr : handlerCallsFor i.val (Timer_Stop i.val w).trace
      = handlerCallsFor i.val w.trace := by
    rw [Timer_Stop_in_range]
    simp [handlerCallsFor, handlerCallWith, List.filterMap_append]
  have hidle : tickOf (Timer_Stop i.val w) i &&& TIMER_CREATED_AND_ACTIVE_AMSK
      ≠ TIMER_CREATED_AND_ACTIVE_AMSK := by
    rw [hw, TIMER_CREATED_AND_ACTIVE_AMSK, and_C000]
    omega
  obtain ⟨u1, u2⟩ := Timer_Update_n_idle n (Timer_Stop i.val w) i hidle
  have hn : tickOf (Timer_Update_n inertHandlers n (Timer_Stop i.val w)) i
      = tickOf (Timer_Stop i.val w) i := by
    unfold tickOf
    rw [u1]
  refine ⟨?_, ?_, hcd, ?_, ?_, ?_, hn, ?_⟩
  · rw [hw, isActive_iff]
    omega
  · rw [hw, isCreated_iff, isCreated_iff]
    omega
  · rw [Timer_Stop_in_range]
    simp only [Function.update_same]
  · intro j hj
    rw [Timer_Stop_in_range]
    simp only [Function.update_noteq hj]
  · rw [u2, htr]
  · rw [hn, hcd]

/-- C8 on a running timer with 5 ticks left: slot 1 is stopped, the other
slots keep running. -/
theorem C8_stop_clears_active_only_witness :
    (Timer_Stop 1 (constWorld ⟨0xC005, 9⟩)).TimerTable 0 =
      (constWorld ⟨0xC005, 9⟩).TimerTable 0 :=
  (C8_stop_clears_active_only (constWorld ⟨0xC005, 9⟩) 1 4).2.2.2.2.1 0 (by decide)

/-- C9: for an id at or above `MAX_TIMERS`, each of `Timer_Destroy`,
`Timer_Start` (any timeout) and `Timer_Stop` returns the world it was given:
every state word and handler, the hooks, the record of stores and hook calls
(so no slot is written and no hook is called) and the out-of-bounds flag. -/
theorem C9_out_of_range_id_is_ignored (w : World) (id T : Nat) (hid : MAX_TIMERS ≤ id) :
    Timer_Destroy id w = w ∧ Timer_Start id T w = w ∧ Timer_Stop id w = w := by
  have hn : ¬ id < MAX_TIMERS := Nat.not_lt.mpr hid
  refine ⟨?_, ?_, ?_⟩
  · unfold Timer_Destroy
    rw [dif_neg hn]
  · unfold Timer_Start
    rw [dif_neg hn]
  · unfold Timer_Stop
    rw [dif_neg hn]

/-- C9 at the largest 8-bit id, on a full table of running timers. -/
theorem C9_out_of_range_id_is_ignored_witness :
    Timer_Destroy 255 (constWorld ⟨0xC005, 9⟩) = constWorld ⟨0xC005, 9⟩ ∧
      Timer_Start 255 65535 (constWorld ⟨0xC005, 9⟩) = constWorld ⟨0xC005, 9⟩ ∧
      Timer_Stop 255 (constWorld ⟨0xC005, 9⟩) = constWorld ⟨0xC005, 9⟩ :=
  C9_out_of_range_id_is_ignored (constWorld ⟨0xC005, 9⟩) 255 65535 (by decide)

/-- C10: whatever the table held, `Timer_Init` leaves every slot all-zero
(not created, not active, no handler), and a `Timer_Create` issued right after
`Timer_Init` returns slot id 0. -/
theorem C10_init_resets_table (ctx : stimer_init_ctx_t) (w : World) (h : Nat) :
    (∀ i : Fin MAX_TIMERS,
        (Timer_Init ctx w).TimerTable i = { TimeoutTick := 0, TimerHandler := 0 }) ∧
      (Timer_Init ctx w).TimerInitCtx = ctx ∧
      (Timer_Create h (Timer_Init ctx w)).1 = 0 := by
  refine ⟨fun _ => rfl, rfl, ?_⟩
  exact (Timer_Create_filledTo h 0 (Timer_Init ctx w) (by decide)
    (filledTo_Timer_Init ctx w)).1

/-! ## Flags and expiry in one tick -/

/-- The test of `Timer_Update` holds exactly for created, active words. -/
theorem both_flags_iff (x : Nat) :
    x &&& TIMER_CREATED_AND_ACTIVE_AMSK = TIMER_CREATED_AND_ACTIVE_AMSK ↔
      isCreated x ∧ isActive x := by
  rw [TIMER_CREATED_AND_ACTIVE_AMSK, and_C000, isCreated_iff, isActive_iff]
  omega

/-- A word expires on the next tick exactly when it is created and active
with countdown 1. -/
theorem expires_iff_dueNow (x : Nat) : expires x ↔ dueNow x := by
  unfold expires dueNow
  rw [both_flags_iff, TIMER_TIMEOUT_MASK, and_3FFF, UINT16_MOD, countdown_eq]
  constructor
  · rintro ⟨⟨h1, h2⟩, h3⟩
    refine ⟨h1, h2, ?_⟩
    rw [isActive_iff] at h2
    rw [isCreated_iff] at h1
    omega
  · rintro ⟨h1, h2, h3⟩
    refine ⟨⟨h1, h2⟩, ?_⟩
    rw [isActive_iff] at h2
    rw [isCreated_iff] at h1
    omega

theorem handlerCalls_append (tr1 tr2 : List Event) :
    handlerCalls (tr1 ++ tr2) = handlerCalls tr1 ++ handlerCalls tr2 := by
  simp [handlerCalls, List.filterMap_append]

theorem handlerCalls_slotEvents (s : stimer_t) (i : Nat) :
    handlerCalls (slotEvents s i) =
      if expires s.TimeoutTick then [(s.TimerHandler, i)] else [] := by
  unfold slotEvents expires
  by_cases h1 : s.TimeoutTick &&& TIMER_CREATED_AND_ACTIVE_AMSK = TIMER_CREATED_AND_ACTIVE_AMSK
  · by_cases h2 : ((s.TimeoutTick + (UINT16_MOD - 1)) % UINT16_MOD) &&& TIMER_TIMEOUT_MASK = 0
    · simp [h1, h2, handlerCalls, handlerCallOf]
    · simp [h1, h2, handlerCalls, handlerCallOf]
  · simp [h1, handlerCalls, handlerCallOf]

/-- The handler calls of the loop, for any list of indices. -/
theorem handlerCalls_loop (t : Fin MAX_TIMERS → stimer_t) (l : List (Fin MAX_TIMERS)) :
    handlerCalls ((l.map (fun i => slotEvents (t i) i.val)).flatten) =
      (l.filter (fun i => decide (dueNow (t i).TimeoutTick))).map
        (fun i => ((t i).TimerHandler, i.val)) := by
  induction l with
  | nil => simp [handlerCalls]
  | cons j l ih =>
    rw [List.map_cons, List.flatten_cons, handlerCalls_append, ih, handlerCalls_slotEvents]
    by_cases hd : dueNow (t j).TimeoutTick
    · have he : expires (t j).TimeoutTick := (expires_iff_dueNow _).mpr hd
      simp [hd, he]
    · have he : ¬ expires (t j).TimeoutTick := fun h => hd ((expires_iff_dueNow _).mp h)
      simp [hd, he]

/-! ## The claims, continued -/

/-- C13: idempotence of `Timer_Stop`.  For every world and every id, in range
or not, the table after two `Timer_Stop id` in a row is the table after one. -/
theorem C13_stop_is_idempotent (w : World) (id : Nat) :
    (Timer_Stop id (Timer_Stop id w)).TimerTable = (Timer_Stop id w).TimerTable := by
  by_cases hid : id < MAX_TIMERS
  · have e1 := Timer_Stop_in_range ⟨id, hid⟩ (Timer_Stop id w)
    have e2 := Timer_Stop_in_range ⟨id, hid⟩ w
    simp only at e1 e2
    rw [e1]
    rw [e2]
    funext j
    by_cases hj : j = ⟨id, hid⟩
    · subst hj
      simp [tickOf]
    · simp [Function.update_noteq hj]
  · unfold Timer_Stop
    rw [dif_neg hid, dif_neg hid]

/-- C19: `Timer_Update` (inert handlers) skips every slot that does not have
both the created and the active flag: the slot, state word and handler, is the
same after the call, and no handler call with its index is recorded. -/
theorem C19_update_skips_idle_slots (w : World) (i : Fin MAX_TIMERS)
    (hidle : ¬ (isCreated (tickOf w i) ∧ isActive (tickOf w i))) :
    (Timer_Update inertHandlers w).TimerTable i = w.TimerTable i ∧
      handlerCallsFor i.val (Timer_Update inertHandlers w).trace =
        handlerCallsFor i.val w.trace := by
  have hmask : tickOf w i &&& TIMER_CREATED_AND_ACTIVE_AMSK
      ≠ TIMER_CREATED_AND_ACTIVE_AMSK := fun h => hidle ((both_flags_iff _).mp h)
  obtain ⟨t1, t2⟩ := tickWord_idle (tickOf w i) hmask
  refine ⟨?_, ?_⟩
  · rw [Timer_Update_inert]
    show tickSlot (w.TimerTable i) = w.TimerTable i
    unfold tickSlot
    unfold tickOf at t1
    rw [t1]
  · rw [handlerCallsFor_Timer_Update, if_neg t2, List.append_nil]

/-- C19 on three kinds of skipped slot: unallocated, created but stopped with
a stale countdown, and active without created. -/
theorem C19_update_skips_idle_slots_witness :
    ((Timer_Update inertHandlers (constWorld ⟨0, 0⟩)).TimerTable 0 =
        (constWorld ⟨0, 0⟩).TimerTable 0 ∧
      handlerCallsFor 0 (Timer_Update inertHandlers (constWorld ⟨0, 0⟩)).trace =
        handlerCallsFor 0 (constWorld ⟨0, 0⟩).trace) ∧
    ((Timer_Update inertHandlers (constWorld ⟨0x4001, 9⟩)).TimerTable 1 =
        (constWorld ⟨0x4001, 9⟩).TimerTable 1 ∧
      handlerCallsFor 1 (Timer_Update inertHandlers (constWorld ⟨0x4001, 9⟩)).trace =
        handlerCallsFor 1 (constWorld ⟨0x4001, 9⟩).trace) ∧
    ((Timer_Update inertHandlers (constWorld ⟨0x8001, 9⟩)).TimerTable 2 =
        (constWorld ⟨0x8001, 9⟩).TimerTable 2 ∧
      handlerCallsFor 2 (Timer_Update inertHandlers (constWorld ⟨0x8001, 9⟩)).trace =
        handlerCallsFor 2 (constWorld ⟨0x8001, 9⟩).trace) :=
  ⟨C19_update_skips_idle_slots (constWorld ⟨0, 0⟩) 0
      (by show ¬ (isCreated 0 ∧ isActive 0); decide),
    C19_update_skips_idle_slots (constWorld ⟨0x4001, 9⟩) 1
      (by show ¬ (isCreated 0x4001 ∧ isActive 0x4001); decide),
    C19_update_skips_idle_slots (constWorld ⟨0x8001, 9⟩) 2
      (by show ¬ (isCreated 0x8001 ∧ isActive 0x8001); decide)⟩

/-- C20: with inert handlers, the handler calls that one `Timer_Update`
records are exactly those of the slots that were created and active with
countdown 1 before the call, each once, with the slot's handler and its own
index, in strictly increasing index order. -/
theorem C20_update_dispatches_in_table_order (w : World) :
    handlerCalls (Timer_Update inertHandlers w).trace =
        handlerCalls w.trace ++
          ((List.finRange MAX_TIMERS).filter (fun i => decide (dueNow (tickOf w i)))).map
            (fun i => ((w.TimerTable i).TimerHandler, i.val)) ∧
      ((List.finRange MAX_TIMERS).filter (fun i => decide (dueNow (tickOf w i)))).Pairwise
        (fun a b => a < b) := by
  refine ⟨?_, ?_⟩
  · rw [Timer_Update_inert]
    simp only [handlerCalls_append, handlerCalls_loop]
    rfl
  · exact List.Pairwise.sublist (List.filter_sublist _) (List.pairwise_lt_finRange _)

/-- The loop body of `Timer_Update` records no hook call. -/
theorem slotEvents_no_hook (s : stimer_t) (i : Nat) :
    ∀ e ∈ slotEvents s i, isHookCall e = false := by
  intro e he
  unfold slotEvents at he
  split at he
  · split at he
    · simp only [List.mem_cons, List.mem_singleton, List.not_mem_nil, or_false] at he
      rcases he with rfl | rfl | rfl <;> rfl
    · simp only [List.mem_singleton] at he
      rw [he]
      rfl
  · exact absurd he (List.not_mem_nil _)

/-- C14: hook bracketing, over the trace.  `Timer_Start` and `Timer_Stop` with
an id in range record one call of the disable hook, one store into the slot,
one call of the enable hook, in this order and nothing else; a successful
`Timer_Create` records the disable hook, its two stores into the claimed slot,
the enable hook.  A failed `Timer_Create` records nothing, `Timer_Destroy`
records its store only, and the events of `Timer_Update` (inert handlers)
contain no hook call. -/
theorem C14_hooks_bracket_the_writes (w : World) (i : Fin MAX_TIMERS) (T fp : Nat) :
    (Timer_Start i.val T w).trace =
        w.trace ++ [Event.hook w.TimerInitCtx.disable_irq, Event.store i.val,
          Event.hook w.TimerInitCtx.enable_irq] ∧
      (Timer_Stop i.val w).trace =
        w.trace ++ [Event.hook w.TimerInitCtx.disable_irq, Event.store i.val,
          Event.hook w.TimerInitCtx.enable_irq] ∧
      ((Timer_Create fp w).1 ≠ ERR_TIMER_NOT_AVAILABLE →
        (Timer_Create fp w).2.trace =
          w.trace ++ [Event.hook w.TimerInitCtx.disable_irq,
            Event.store (Timer_Create fp w).1, Event.store (Timer_Create fp w).1,
            Event.hook w.TimerInitCtx.enable_irq]) ∧
      ((Timer_Create fp w).1 = ERR_TIMER_NOT_AVAILABLE →
        (Timer_Create fp w).2.trace = w.trace) ∧
      (Timer_Destroy i.val w).trace = w.trace ++ [Event.store i.val] ∧
      (∃ evs : List Event, (Timer_Update inertHandlers w).trace = w.trace ++ evs ∧
        ∀ e ∈ evs, isHookCall e = false) := by
  have hcases : Timer_Create_scan w.TimerTable 0 = MAX_TIMERS ∨
      Timer_Create_scan w.TimerTable 0 < MAX_TIMERS := by
    have := Timer_Create_scan_le w.TimerTable
    omega
  refine ⟨?_, ?_, ?_, ?_, ?_, ?_⟩
  · rw [Timer_Start_in_range]
  · rw [Timer_Stop_in_range]
  · intro hne
    rcases hcases with e | e
    · rw [Timer_Create_of_full fp w e] at hne
      exact absurd rfl hne
    · rw [Timer_Create_of_scan fp w ⟨_, e⟩ rfl]
  · intro heq
    rcases hcases with e | e
    · rw [Timer_Create_of_full fp w e]
    · rw [Timer_Create_of_scan fp w ⟨_, e⟩ rfl] at heq
      have hne : Timer_Create_scan w.TimerTable 0 ≠ MAX_TIMERS := Nat.ne_of_lt e
      exact absurd heq hne
  · rw [Timer_Destroy_in_range]
  · refine ⟨((List.finRange MAX_TIMERS).map
      (fun j => slotEvents (w.TimerTable j) j.val)).flatten, ?_, ?_⟩
    · rw [Timer_Update_inert]
    · intro e he
      rw [List.mem_flatten] at he
      obtain ⟨l, hl, hel⟩ := he
      rw [List.mem_map] at hl
      obtain ⟨j, _, rfl⟩ := hl
      exact slotEvents_no_hook _ _ e hel

/-- C14 on a fresh table: the successful `Timer_Create` is bracketed by the
hooks at addresses 1 and 2. -/
theorem C14_hooks_bracket_the_writes_witness :
    (Timer_Create 7 (constWorld ⟨0, 0⟩)).2.trace =
      (constWorld ⟨0, 0⟩).trace ++ [Event.hook (constWorld ⟨0, 0⟩).TimerInitCtx.disable_irq,
        Event.store (Timer_Create 7 (constWorld ⟨0, 0⟩)).1,
        Event.store (Timer_Create 7 (constWorld ⟨0, 0⟩)).1,
        Event.hook (constWorld ⟨0, 0⟩).TimerInitCtx.enable_irq] :=
  (C14_hooks_bracket_the_writes (constWorld ⟨0, 0⟩) 0 5 7).2.2.1
    (by
      rw [Timer_Create_eq_of_first_free 7 (constWorld ⟨0, 0⟩) 0
        (by show ¬ isCreated 0; decide) (fun j hj => absurd hj (Nat.not_lt_zero _))]
      decide)

/-- A created, active word with countdown 0 is decremented to `0xBFFF`: the
borrow clears bit 14, bit 15 stays, and the handler is not called. -/
theorem tickWord_underflow (x : Nat) (hc : isCreated x) (ha : isActive x)
    (h0 : countdown x = 0) : tickWord x = 0xBFFF ∧ ¬ expires x := by
  have hne : ¬ dueNow x := by
    rintro ⟨_, _, h1⟩
    rw [h0] at h1
    exact absurd h1 (by decide)
  refine ⟨?_, fun h => hne ((expires_iff_dueNow x).mp h)⟩
  have hboth := (both_flags_iff x).mpr ⟨hc, ha⟩
  rw [isCreated_iff] at hc
  rw [isActive_iff] at ha
  rw [countdown_eq] at h0
  have hy : (x + (UINT16_MOD - 1)) % UINT16_MOD = 0xBFFF := by
    rw [UINT16_MOD]
    omega
  unfold tickWord
  rw [if_pos hboth, hy, if_neg (by decide)]

/-- C15, as stated, fails on the word `0xC000` (created, active, countdown 0):
after `Timer_Update` the slot is still active and is no longer created. -/
theorem C15_underflow_counterexample :
    isCreated (tickOf (constWorld ⟨0xC000, 9⟩) 0) ∧
      isActive (tickOf (constWorld ⟨0xC000, 9⟩) 0) ∧
      countdown (tickOf (constWorld ⟨0xC000, 9⟩) 0) = 0 ∧
      isActive (tickOf (Timer_Update inertHandlers (constWorld ⟨0xC000, 9⟩)) 0) ∧
      ¬ isCreated (tickOf (Timer_Update inertHandlers (constWorld ⟨0xC000, 9⟩)) 0) := by
  rw [Timer_Update_inert]
  decide

/-- C15, amended: for a slot whose created and active flags are set and whose
countdown is 0, the decrement of `Timer_Update` borrows into the created bit:
afterwards the created flag is clear, the active flag is still set, the
countdown is 16383, and no handler call is recorded for the slot. -/
theorem C15_underflow_clears_created (w : World) (i : Fin MAX_TIMERS)
    (hc : isCreated (tickOf w i)) (ha : isActive (tickOf w i))
    (h0 : countdown (tickOf w i) = 0) :
    tickOf (Timer_Update inertHandlers w) i = 0xBFFF ∧
      ¬ isCreated (tickOf (Timer_Update inertHandlers w) i) ∧
      isActive (tickOf (Timer_Update inertHandlers w) i) ∧
      countdown (tickOf (Timer_Update inertHandlers w) i) = 16383 ∧
      handlerCallsFor i.val (Timer_Update inertHandlers w).trace =
        handlerCallsFor i.val w.trace := by
  obtain ⟨t1, t2⟩ := tickWord_underflow (tickOf w i) hc ha h0
  have hw : tickOf (Timer_Update inertHandlers w) i = 0xBFFF := by
    rw [Timer_Update_inert]
    show tickWord (tickOf w i) = 0xBFFF
    exact t1
  refine ⟨hw, ?_, ?_, ?_, ?_⟩
  · rw [hw]; decide
  · rw [hw]; decide
  · rw [hw]; decide
  · rw [handlerCallsFor_Timer_Update, if_neg t2, List.append_nil]

/-- C15, amended, on the word `0xC000`. -/
theorem C15_underflow_clears_created_witness :
    tickOf (Timer_Update inertHandlers (constWorld ⟨0xC000, 9⟩)) 3 = 0xBFFF :=
  (C15_underflow_clears_created (constWorld ⟨0xC000, 9⟩) 3
    (by show isCreated 0xC000; decide) (by show isActive 0xC000; decide)
    (by show countdown 0xC000 = 0; decide)).1

/-- C16: a freshly created slot started with a timeout that is a multiple of
16384 is lost.  The first `Timer_Update` records no handler call and leaves
the slot not created, active, with countdown 16383; no number of further
`Timer_Update` calls records a handler call for it; and a following
`Timer_Create` returns an id not above it, and exactly its id when every slot
below is created, although `Timer_Destroy` was never called. -/
theorem C16_zero_timeout_loses_timer (w : World) (i : Fin MAX_TIMERS) (T n h : Nat)
    (hfresh : tickOf w i = TIMER_CREATED_MASK) (hT : T % 16384 = 0) :
    handlerCallsFor i.val (Timer_Update inertHandlers (Timer_Start i.val T w)).trace =
        handlerCallsFor i.val w.trace ∧
      ¬ isCreated (tickOf (Timer_Update inertHandlers (Timer_Start i.val T w)) i) ∧
      isActive (tickOf (Timer_Update inertHandlers (Timer_Start i.val T w)) i) ∧
      countdown (tickOf (Timer_Update inertHandlers (Timer_Start i.val T w)) i) = 16383 ∧
      handlerCallsFor i.val (Timer_Update_n inertHandlers n
          (Timer_Update inertHandlers (Timer_Start i.val T w))).trace =
        handlerCallsFor i.val w.trace ∧
      (Timer_Create h (Timer_Update_n inertHandlers n
          (Timer_Update inertHandlers (Timer_Start i.val T w)))).1 ≤ i.val ∧
      ((∀ j : Fin MAX_TIMERS, j < i → isCreated (tickOf (Timer_Update_n inertHandlers n
            (Timer_Update inertHandlers (Timer_Start i.val T w))) j)) →
        (Timer_Create h (Timer_Update_n inertHandlers n
          (Timer_Update inertHandlers (Timer_Start i.val T w)))).1 = i.val) := by
  have hs : tickOf (Timer_Start i.val T w) i = 0xC000 := by
    have e := Timer_Start_created_word i T w (by rw [hfresh]; decide)
    rw [hfresh, hT] at e
    exact e
  obtain ⟨s1, _⟩ := Timer_Start_calls i T i.val w
  have hw1 : tickOf (Timer_Update inertHandlers (Timer_Start i.val T w)) i = 0xBFFF := by
    rw [Timer_Update_inert]
    show tickWord (tickOf (Timer_Start i.val T w) i) = 0xBFFF
    rw [hs]
    decide
  have hc1 : handlerCallsFor i.val (Timer_Update inertHandlers (Timer_Start i.val T w)).trace
      = handlerCallsFor i.val w.trace := by
    rw [handlerCallsFor_Timer_Update, hs, if_neg (by decide), List.append_nil, s1]
  have hidle : tickOf (Timer_Update inertHandlers (Timer_Start i.val T w)) i
      &&& TIMER_CREATED_AND_ACTIVE_AMSK ≠ TIMER_CREATED_AND_ACTIVE_AMSK := by
    rw [hw1]; decide
  obtain ⟨n1, n2⟩ := Timer_Update_n_idle n _ i hidle
  have hfree : ¬ isCreated (tickOf (Timer_Update_n inertHandlers n
      (Timer_Update inertHandlers (Timer_Start i.val T w))) i) := by
    unfold tickOf
    rw [n1]
    show ¬ isCreated (tickOf (Timer_Update inertHandlers (Timer_Start i.val T w)) i)
    rw [hw1]
    decide
  refine ⟨hc1, ?_, ?_, ?_, ?_, Timer_Create_le_of_free h _ i hfree, ?_⟩
  · rw [hw1]; decide
  · rw [hw1]; decide
  · rw [hw1]; decide
  · rw [n2, hc1]
  · intro hbelow
    exact Timer_Create_eq_of_first_free h _ i hfree hbelow

/-- C16 on a table of freshly created slots, slot 0 started with timeout 16384. -/
theorem C16_zero_timeout_loses_timer_witness :
    (Timer_Create 7 (Timer_Update_n inertHandlers 3
        (Timer_Update inertHandlers (Timer_Start 0 16384 (constWorld ⟨0x4000, 9⟩))))).1 = 0 :=
  (C16_zero_timeout_loses_timer (constWorld ⟨0x4000, 9⟩) 0 16384 3 7 rfl (by decide)).2.2.2.2.2.2
    (fun j hj => absurd hj (Nat.not_lt_zero _))

/-- A timeout whose bits all lie inside `r` adds nothing to `r` in an OR. -/
theorem or_absorb (r t : Nat) (hr : r < 16384)
    (ht : t &&& (TIMER_TIMEOUT_MASK - r) = 0) (htlt : t < 16384) : r ||| t = r := by
  apply Nat.eq_of_testBit_eq
  intro k
  rw [Nat.testBit_or]
  by_cases hk : t.testBit k = true
  · have hbit : (t &&& (TIMER_TIMEOUT_MASK - r)).testBit k = false := by
      rw [ht]
      exact Nat.zero_testBit k
    rw [Nat.testBit_and, hk, Bool.true_and] at hbit
    have hk14 : k < 14 := by
      by_contra hge
      have h2 : t < 2 ^ k := lt_of_lt_of_le htlt
        (by
          have : (2 : Nat) ^ 14 ≤ 2 ^ k := Nat.pow_le_pow_right (by decide) (by omega)
          simpa using this)
      rw [Nat.testBit_lt_two_pow h2] at hk
      exact absurd hk (by decide)
    have hsub : TIMER_TIMEOUT_MASK - r = 2 ^ 14 - (r + 1) := by
      rw [TIMER_TIMEOUT_MASK]
      omega
    have hr14 : r < 2 ^ 14 := by simpa using hr
    rw [hsub, Nat.testBit_two_pow_sub_succ hr14] at hbit
    simp only [hk14, decide_True, Bool.true_and, Bool.not_eq_false_eq_eq_true] at hbit
    have hrk : r.testBit k = true := by
      cases hb : r.testBit k
      · rw [hb] at hbit
        exact absurd hbit (by decide)
      · rfl
    rw [hrk, Bool.true_or]
  · have hf : t.testBit k = false := by
      cases hb : t.testBit k
      · rfl
      · exact absurd hb hk
    rw [hf, Bool.or_false]

/-- C17: pause and resume.  For a created slot with countdown `r > 0` (active,
as in the claim, or not), after `Timer_Stop`, any number of `Timer_Update` calls and then a `Timer_Start`
whose truncated timeout has no bit outside `r`, the countdown resumes from
`r`: the handler of the slot is called exactly once in the `r` following
`Timer_Update` calls, on the `r`-th. -/
theorem C17_stop_then_start_resumes (w : World) (i : Fin MAX_TIMERS) (r T n : Nat)
    (hc : isCreated (tickOf w i))
    (hr : countdown (tickOf w i) = r) (hr0 : 0 < r)
    (hT : (T % 16384) &&& (TIMER_TIMEOUT_MASK - r) = 0) :
    countdown (tickOf (Timer_Start i.val T
        (Timer_Update_n inertHandlers n (Timer_Stop i.val w))) i) = r ∧
      (∀ k, k < r →
        handlerCallsFor i.val (Timer_Update_n inertHandlers k (Timer_Start i.val T
          (Timer_Update_n inertHandlers n (Timer_Stop i.val w)))).trace =
          handlerCallsFor i.val w.trace) ∧
      handlerCallsFor i.val (Timer_Update_n inertHandlers r (Timer_Start i.val T
          (Timer_Update_n inertHandlers n (Timer_Stop i.val w)))).trace =
        handlerCallsFor i.val w.trace ++ [(w.TimerTable i).TimerHandler] := by
  have hrlt : r < 16384 := by
    rw [← hr, countdown_eq]
    exact Nat.mod_lt _ (by decide)
  -- the stopped slot
  have hstop : (Timer_Stop i.val w).TimerTable i
      = { w.TimerTable i with TimeoutTick := tickOf w i % 32768 } := by
    rw [Timer_Stop_in_range]
    simp only [Function.update_same]
  have hstoptr : handlerCallsFor i.val (Timer_Stop i.val w).trace
      = handlerCallsFor i.val w.trace := by
    rw [Timer_Stop_in_range]
    simp [handlerCallsFor, handlerCallWith, List.filterMap_append]
  have hidle : tickOf (Timer_Stop i.val w) i &&& TIMER_CREATED_AND_ACTIVE_AMSK
      ≠ TIMER_CREATED_AND_ACTIVE_AMSK := by
    unfold tickOf
    rw [hstop, TIMER_CREATED_AND_ACTIVE_AMSK, and_C000]
    show ¬ (tickOf w i % 32768 % 65536 - tickOf w i % 32768 % 16384 = 49152)
    omega
  obtain ⟨n1, n2⟩ := Timer_Update_n_idle n (Timer_Stop i.val w) i hidle
  -- the paused world
  have hpw : tickOf (Timer_Update_n inertHandlers n (Timer_Stop i.val w)) i
      = tickOf w i % 32768 := by
    unfold tickOf
    rw [n1, hstop]
    rfl
  have hpc : isCreated (tickOf (Timer_Update_n inertHandlers n (Timer_Stop i.val w)) i) := by
    rw [hpw, isCreated_iff]
    rw [isCreated_iff] at hc
    omega
  have hword := Timer_Start_created_word i T _ hpc
  have hcd : tickOf (Timer_Update_n inertHandlers n (Timer_Stop i.val w)) i % 16384 = r := by
    rw [hpw, ← hr, countdown_eq]
    omega
  rw [hcd, or_absorb r (T % 16384) hrlt hT (Nat.mod_lt _ (by decide))] at hword
  obtain ⟨f1, f2, _⟩ := fires_on_tick _ i r hr0 hrlt hword
  obtain ⟨s1, s2⟩ := Timer_Start_calls i T i.val
    (Timer_Update_n inertHandlers n (Timer_Stop i.val w))
  have hh : ((Timer_Update_n inertHandlers n (Timer_Stop i.val w)).TimerTable i).TimerHandler
      = (w.TimerTable i).TimerHandler := by
    rw [n1, hstop]
  simp only [s1, s2, n2, hstoptr, hh] at f1 f2
  refine ⟨?_, f1, f2⟩
  rw [hword, countdown_eq]
  omega

/-- C17 on a running timer with 5 ticks left, stopped, left alone for 4 ticks
and started with timeout 0: the handler is called on the 5th tick after. -/
theorem C17_stop_then_start_resumes_witness :
    handlerCallsFor 2 (Timer_Update_n inertHandlers 5 (Timer_Start 2 0
        (Timer_Update_n inertHandlers 4 (Timer_Stop 2 (constWorld ⟨0xC005, 9⟩))))).trace =
      handlerCallsFor 2 (constWorld ⟨0xC005, 9⟩).trace ++ [9] :=
  (C17_stop_then_start_resumes (constWorld ⟨0xC005, 9⟩) 2 5 0 4
    (by show isCreated 0xC005; decide)
    (by show countdown 0xC005 = 5; decide) (by decide) (by decide)).2.2

/-- C18, as stated, fails on the all-zero table: slot 0 is not created, and
`Timer_Start 0 5` changes the table (the word of slot 0 becomes `0x8005`). -/
theorem C18_start_not_created_counterexample :
    ¬ isCreated (tickOf (constWorld ⟨0, 0⟩) 0) ∧
      tickOf (Timer_Start 0 5 (constWorld ⟨0, 0⟩)) 0 = 0x8005 ∧
      (Timer_Start 0 5 (constWorld ⟨0, 0⟩)).TimerTable ≠ (constWorld ⟨0, 0⟩).TimerTable := by
  refine ⟨by decide, by decide, ?_⟩
  intro h
  have h0 := congrFun h 0
  revert h0
  decide

/-- C18, amended: `Timer_Start` on a slot in range that is not created changes
the state word of that slot only, by the OR of `0x8000 + T mod 16384`; the
slot is still not created, its handler and every other slot are as before.
Following `Timer_Update` calls record no handler call for it and leave it as
`Timer_Start` left it.  A following `Timer_Create` returns the id it would
have returned without the `Timer_Start`, and when that id is the started slot
it leaves the table it would have left without the `Timer_Start`. -/
theorem C18_start_not_created_flips_bits_only (w : World) (i : Fin MAX_TIMERS) (T n h : Nat)
    (hnc : ¬ isCreated (tickOf w i)) :
    tickOf (Timer_Start i.val T w) i = (tickOf w i ||| (0x8000 + T % 16384)) % 65536 ∧
      isActive (tickOf (Timer_Start i.val T w) i) ∧
      ¬ isCreated (tickOf (Timer_Start i.val T w) i) ∧
      ((Timer_Start i.val T w).TimerTable i).TimerHandler = (w.TimerTable i).TimerHandler ∧
      (∀ j : Fin MAX_TIMERS, j ≠ i → (Timer_Start i.val T w).TimerTable j = w.TimerTable j) ∧
      (Timer_Update_n inertHandlers n (Timer_Start i.val T w)).TimerTable i =
        (Timer_Start i.val T w).TimerTable i ∧
      handlerCallsFor i.val (Timer_Update_n inertHandlers n (Timer_Start i.val T w)).trace =
        handlerCallsFor i.val w.trace ∧
      (Timer_Create h (Timer_Start i.val T w)).1 = (Timer_Create h w).1 ∧
      ((Timer_Create h w).1 = i.val →
        (Timer_Create h (Timer_Start i.val T w)).2.TimerTable =
          (Timer_Create h w).2.TimerTable) := by
  have ht : T % 16384 < 16384 := Nat.mod_lt _ (by decide)
  have hw : tickOf (Timer_Start i.val T w) i
      = (tickOf w i ||| (0x8000 + T % 16384)) % 65536 := by
    rw [Timer_Start_in_range]
    simp only [tickOf, Function.update_same]
  have hnc1 : ¬ isCreated (tickOf (Timer_Start i.val T w) i) := by
    rw [hw, start_word_isCreated _ _ ht]
    exact hnc
  have hother : ∀ j : Fin MAX_TIMERS, j ≠ i →
      (Timer_Start i.val T w).TimerTable j = w.TimerTable j := by
    intro j hj
    rw [Timer_Start_in_range]
    simp only [Function.update_noteq hj]
  have hflags : ∀ j : Fin MAX_TIMERS,
      isCreated (tickOf (Timer_Start i.val T w) j) ↔ isCreated (tickOf w j) := by
    intro j
    by_cases hj : j = i
    · subst hj
      exact ⟨fun hx => absurd hx hnc1, fun hx => absurd hx hnc⟩
    · unfold tickOf
      rw [hother j hj]
  obtain ⟨s1, s2⟩ := Timer_Start_calls i T i.val w
  have hidle : tickOf (Timer_Start i.val T w) i &&& TIMER_CREATED_AND_ACTIVE_AMSK
      ≠ TIMER_CREATED_AND_ACTIVE_AMSK := fun hx => hnc1 ((both_flags_iff _).mp hx).1
  obtain ⟨n1, n2⟩ := Timer_Update_n_idle n (Timer_Start i.val T w) i hidle
  -- the scan of the table without the start stops below `MAX_TIMERS`
  obtain ⟨_, _, s3, s4⟩ := Timer_Create_scan_spec w.TimerTable 0 (Nat.zero_le _)
  have hlt : Timer_Create_scan w.TimerTable 0 < MAX_TIMERS := by
    by_contra hge
    have e : Timer_Create_scan w.TimerTable 0 = MAX_TIMERS := by
      have := Timer_Create_scan_le w.TimerTable
      omega
    exact hnc ((Timer_Create_scan_full w.TimerTable).mp e i)
  have hscan : Timer_Create_scan (Timer_Start i.val T w).TimerTable 0
      = Timer_Create_scan w.TimerTable 0 := by
    apply Timer_Create_scan_eq _ ⟨Timer_Create_scan w.TimerTable 0, hlt⟩
    · intro hx
      exact s4 hlt ((hflags _).mp hx)
    · intro j hj
      exact (hflags j).mpr (s3 j (Nat.zero_le _) hj)
  have hcw := Timer_Create_of_scan h w ⟨_, hlt⟩ rfl
  have hcs := Timer_Create_of_scan h (Timer_Start i.val T w) ⟨_, hlt⟩ hscan
  refine ⟨hw, ?_, hnc1, s2, hother, n1, ?_, ?_, ?_⟩
  · rw [hw]
    exact start_word_isActive _ _ ht
  · rw [n2, s1]
  · rw [hcw, hcs]
  · intro hret
    rw [hcw] at hret
    have hi : (⟨Timer_Create_scan w.TimerTable 0, hlt⟩ : Fin MAX_TIMERS) = i := Fin.ext hret
    rw [hcw, hcs]
    simp only [hi]
    funext j
    by_cases hj : j = i
    · subst hj
      simp only [Function.update_same]
    · simp only [Function.update_noteq hj]
      exact hother j hj

/-- C18, amended, on the all-zero table: the started slot 0 is handed out by
the next `Timer_Create`, as it would have been without the start. -/
theorem C18_start_not_created_flips_bits_only_witness :
    (Timer_Create 7 (Timer_Start 0 5 (constWorld ⟨0, 0⟩))).1 =
      (Timer_Create 7 (constWorld ⟨0, 0⟩)).1 :=
  (C18_start_not_created_flips_bits_only (constWorld ⟨0, 0⟩) 0 5 3 7
    (by show ¬ isCreated 0; decide)).2.2.2.2.2.2.2.1

/-! ## Active implies created, for runs that arm properly -/

theorem wellArmed_tickWord (x : Nat) (hx : wellArmed x) : wellArmed (tickWord x) := by
  by_cases hboth : x &&& TIMER_CREATED_AND_ACTIVE_AMSK = TIMER_CREATED_AND_ACTIVE_AMSK
  · obtain ⟨hlt, himp⟩ := hx
    obtain ⟨hc, ha⟩ := (both_flags_iff x).mp hboth
    obtain ⟨_, hcd⟩ := himp ha
    have hsplit := word_split x hlt
    rw [TIMER_CREATED_AND_ACTIVE_AMSK] at hboth
    rw [hboth, ← TIMER_TIMEOUT_MASK] at hsplit
    change x = 0xC000 + countdown x at hsplit
    have hclt : countdown x < 16384 := by
      rw [countdown_eq]
      exact Nat.mod_lt _ (by decide)
    by_cases h1 : countdown x = 1
    · rw [hsplit, h1]
      rw [tickWord_last.1]
      exact ⟨by decide, fun h => absurd h (by decide)⟩
    · obtain ⟨t1, _⟩ := tickWord_running (countdown x) (by omega) hclt
      rw [hsplit, t1]
      refine ⟨by omega, fun _ => ?_⟩
      rw [isCreated_iff]
      simp only [countdown_eq] at *
      omega
  · rw [(tickWord_idle x hboth).1]
    exact hx

/-- The invariant of a run: every slot is well armed. -/
theorem wellArmed_applyOp (op : Op) (w : World) (hop : armsProperly op w)
    (hw : ∀ i : Fin MAX_TIMERS, wellArmed (tickOf w i)) :
    ∀ i : Fin MAX_TIMERS, wellArmed (tickOf (applyOp op w) i) := by
  intro i
  cases op with
  | create fp =>
    have hcases : Timer_Create_scan w.TimerTable 0 = MAX_TIMERS ∨
        Timer_Create_scan w.TimerTable 0 < MAX_TIMERS := by
      have := Timer_Create_scan_le w.TimerTable
      omega
    rcases hcases with e | e
    · simp only [applyOp, Timer_Create_of_full fp w e]
      exact hw i
    · simp only [applyOp, Timer_Create_of_scan fp w ⟨_, e⟩ rfl]
      by_cases hi : i = ⟨Timer_Create_scan w.TimerTable 0, e⟩
      · subst hi
        simp only [tickOf, Function.update_same]
        exact ⟨by decide, fun h => absurd h (by decide)⟩
      · simp only [tickOf, Function.update_noteq hi]
        exact hw i
  | destroy timerId =>
    by_cases hid : timerId < MAX_TIMERS
    · have e := Timer_Destroy_in_range ⟨timerId, hid⟩ w
      simp only at e
      simp only [applyOp, e]
      by_cases hi : i = ⟨timerId, hid⟩
      · subst hi
        simp only [tickOf, Function.update_same]
        exact ⟨by decide, fun h => absurd h (by decide)⟩
      · simp only [tickOf, Function.update_noteq hi]
        exact hw i
    · simp only [applyOp, Timer_Destroy, dif_neg hid]
      exact hw i
  | start timerId timeout =>
    by_cases hid : timerId < MAX_TIMERS
    · obtain ⟨hc, hne⟩ := hop hid
      by_cases hi : i = ⟨timerId, hid⟩
      · subst hi
        have hword := Timer_Start_created_word ⟨timerId, hid⟩ timeout w hc
        rw [← countdown_eq] at hword
        simp only at hword
        simp only [applyOp, hword]
        have hlt : countdown (tickOf w ⟨timerId, hid⟩) ||| (timeout % 16384) < 16384 := by
          rw [countdown_eq]
          exact or_countdown_lt _ _
        refine ⟨by omega, fun _ => ?_⟩
        rw [isCreated_iff]
        simp only [countdown_eq] at *
        omega
      · have e := Timer_Start_in_range ⟨timerId, hid⟩ timeout w
        simp only at e
        simp only [applyOp, e, tickOf, Function.update_noteq hi]
        exact hw i
    · simp only [applyOp, Timer_Start, dif_neg hid]
      exact hw i
  | stop timerId =>
    by_cases hid : timerId < MAX_TIMERS
    · have e := Timer_Stop_in_range ⟨timerId, hid⟩ w
      simp only at e
      simp only [applyOp, e]
      by_cases hi : i = ⟨timerId, hid⟩
      · subst hi
        simp only [tickOf, Function.update_same]
        refine ⟨by omega, fun h => ?_⟩
        rw [isActive_iff] at h
        omega
      · simp only [tickOf, Function.update_noteq hi]
        exact hw i
    · simp only [applyOp, Timer_Stop, dif_neg hid]
      exact hw i
  | update =>
    simp only [applyOp, Timer_Update_inert]
    exact wellArmed_tickWord _ (hw i)

theorem wellArmed_runOps (ops : List Op) (w : World) (hops : allArmProperly ops w)
    (hw : ∀ i : Fin MAX_TIMERS, wellArmed (tickOf w i)) :
    ∀ i : Fin MAX_TIMERS, wellArmed (tickOf (runOps ops w) i) := by
  induction ops generalizing w with
  | nil => exact hw
  | cons op ops ih =>
    exact ih (applyOp op w) hops.2 (wellArmed_applyOp op w hops.1 hw)

/-- The first `Timer_Create` after `Timer_Init` claims slot 0. -/
theorem Timer_Create_after_Init (ctx : stimer_init_ctx_t) (w0 : World) (fp : Nat) :
    (Timer_Create fp (Timer_Init ctx w0)).2.TimerTable =
      Function.update (fun _ => { TimeoutTick := 0, TimerHandler := 0 }) 0
        { TimeoutTick := TIMER_CREATED_MASK, TimerHandler := fp } := by
  rw [Timer_Create_of_scan fp (Timer_Init ctx w0) 0
    (Timer_Create_scan_eq _ 0 (by show ¬ isCreated 0; decide)
      (fun j hj => absurd hj (Nat.not_lt_zero _)))]
  rfl

/-- C11, as stated, fails right after `Timer_Init`: `Timer_Start 0 5` on the
slot 0 that was never created leaves it active and not created. -/
theorem C11_active_without_created_counterexample :
    isActive (tickOf (runOps [Op.start 0 5] (Timer_Init ⟨1, 2⟩ (constWorld ⟨0, 0⟩))) 0) ∧
      ¬ isCreated (tickOf (runOps [Op.start 0 5] (Timer_Init ⟨1, 2⟩ (constWorld ⟨0, 0⟩))) 0) := by
  decide

/-- C11, amended: in every state reached from `Timer_Init` by a sequence of
`Timer_Create`, `Timer_Destroy`, `Timer_Start`, `Timer_Stop` and `Timer_Update`
calls (inert handlers) in which every `Timer_Start` with an id in range is
made on a slot that is created and leaves a countdown that is not 0, every
slot whose active flag is set has its created flag set. -/
theorem C11_active_implies_created_when_armed_properly (ctx : stimer_init_ctx_t)
    (w0 : World) (ops : List Op) (hops : allArmProperly ops (Timer_Init ctx w0))
    (i : Fin MAX_TIMERS)
    (ha : isActive (tickOf (runOps ops (Timer_Init ctx w0)) i)) :
    isCreated (tickOf (runOps ops (Timer_Init ctx w0)) i) := by
  have hinit : ∀ j : Fin MAX_TIMERS, wellArmed (tickOf (Timer_Init ctx w0) j) := by
    intro j
    show wellArmed 0
    exact ⟨by decide, fun h => absurd h (by decide)⟩
  exact ((wellArmed_runOps ops (Timer_Init ctx w0) hops hinit i).2 ha).1

/-- C11, amended, on the run create, start with timeout 3, update: slot 0 is
active, and created. -/
theorem C11_active_implies_created_when_armed_properly_witness :
    isCreated (tickOf (runOps [Op.create 7, Op.start 0 3, Op.update]
      (Timer_Init ⟨1, 2⟩ (constWorld ⟨0xFFFF, 9⟩))) 0) :=
  C11_active_implies_created_when_armed_properly ⟨1, 2⟩ (constWorld ⟨0xFFFF, 9⟩)
    [Op.create 7, Op.start 0 3, Op.update]
    (by
      refine ⟨trivial, ?_, trivial, trivial⟩
      intro h
      simp only [applyOp, tickOf, Timer_Create_after_Init]
      show isCreated 0x4000 ∧ countdown 0x4000 ||| 3 % 16384 ≠ 0
      decide)
    0
    (by
      simp only [runOps, applyOp, Timer_Update_inert, tickOf]
      rw [show Timer_Start 0 3 = Timer_Start (0 : Fin MAX_TIMERS).val 3 from rfl,
        Timer_Start_in_range]
      simp only [tickOf, Timer_Create_after_Init]
      decide)

/-! ## Handlers that act on the table -/

/-- The word left by the two stores of an expiry is the created flag alone. -/
theorem expiry_word (x : Nat) (he : expires x) :
    (((x + (UINT16_MOD - 1)) % UINT16_MOD) &&& NOT_TIMER_ACTIVE_MASK) % UINT16_MOD
      = TIMER_CREATED_MASK := by
  obtain ⟨hc, ha, h1⟩ := (expires_iff_dueNow x).mp he
  rw [isCreated_iff] at hc
  rw [isActive_iff] at ha
  rw [countdown_eq] at h1
  have hy : (x + (UINT16_MOD - 1)) % UINT16_MOD = 0xC000 := by
    rw [UINT16_MOD]
    omega
  rw [hy]
  decide

/-- When the slot expires, the body of `Timer_Update` is the run of the
handler of the slot, with the index as argument, from `handlerEntry`. -/
theorem Timer_Update_body_expiring (env : HandlerEnv) (idx : Fin MAX_TIMERS) (w : World)
    (he : expires (tickOf w idx)) :
    Timer_Update_body env idx w =
      env (w.TimerTable idx).TimerHandler idx.val (handlerEntry idx w) := by
  obtain ⟨h1, h2⟩ := he
  unfold tickOf at h1 h2
  unfold Timer_Update_body
  simp [h1, h2, storeTick, callHandler, handlerEntry]

/-- When the slot does not expire, no handler runs in the body. -/
theorem Timer_Update_body_not_expiring (env : HandlerEnv) (idx : Fin MAX_TIMERS) (w : World)
    (he : ¬ expires (tickOf w idx)) :
    Timer_Update_body env idx w = Timer_Update_body inertHandlers idx w := by
  unfold expires tickOf at he
  unfold Timer_Update_body
  by_cases h1 : (w.TimerTable idx).TimeoutTick &&& TIMER_CREATED_AND_ACTIVE_AMSK
      = TIMER_CREATED_AND_ACTIVE_AMSK
  · have h2 : ¬ ((((w.TimerTable idx).TimeoutTick + (UINT16_MOD - 1)) % UINT16_MOD)
        &&& TIMER_TIMEOUT_MASK = 0) := fun h => he ⟨h1, h⟩
    simp [h1, h2, storeTick]
  · simp [h1]

/-- The world at the entry of the handler, as a record update. -/
theorem handlerEntry_eq (idx : Fin MAX_TIMERS) (w : World) (he : expires (tickOf w idx)) :
    handlerEntry idx w =
      { w with
        TimerTable := Function.update w.TimerTable idx
          { TimeoutTick := TIMER_CREATED_MASK, TimerHandler := (w.TimerTable idx).TimerHandler }
        trace := w.trace ++ [Event.store idx.val, Event.store idx.val,
          Event.handler (w.TimerTable idx).TimerHandler idx.val] } := by
  have hw := expiry_word (tickOf w idx) he
  unfold tickOf at hw
  unfold handlerEntry
  ext1
  · funext j
    by_cases hj : j = idx
    · subst hj
      simp [storeTick, hw]
    · simp [storeTick, Function.update_noteq hj]
  · rfl
  · simp [storeTick]
  · rfl

/-- At another index the re-arming handlers act as inert ones. -/
theorem Timer_Update_body_rearm_other (i T : Nat) (j : Fin MAX_TIMERS) (hj : j.val ≠ i)
    (w : World) :
    Timer_Update_body (rearmHandlers i T) j w = Timer_Update_body inertHandlers j w := by
  by_cases he : expires (tickOf w j)
  · rw [Timer_Update_body_expiring _ j w he, Timer_Update_body_expiring _ j w he]
    simp only [rearmHandlers, inertHandlers, if_neg hj]
  · rw [Timer_Update_body_not_expiring _ j w he]

/-- At another index the body leaves slot `i` and its handler calls alone. -/
theorem Timer_Update_body_rearm_frame (i j : Fin MAX_TIMERS) (hj : j ≠ i) (T : Nat)
    (w : World) :
    (Timer_Update_body (rearmHandlers i.val T) j w).TimerTable i = w.TimerTable i ∧
      handlerCallsFor i.val (Timer_Update_body (rearmHandlers i.val T) j w).trace =
        handlerCallsFor i.val w.trace := by
  have hv : j.val ≠ i.val := fun e => hj (Fin.ext e)
  rw [Timer_Update_body_rearm_other i.val T j hv, Timer_Update_body_inert]
  refine ⟨?_, ?_⟩
  · simp only [Function.update_noteq (Ne.symm hj)]
  · simp only [handlerCallsFor_append, handlerCallsFor_slotEvents, hv, false_and, if_false,
      List.append_nil]

/-- At index `i` the body leaves slot `i` re-armed if it expired, ticked
otherwise, and records the handler call of an expiry. -/
theorem Timer_Update_body_rearm_self (i : Fin MAX_TIMERS) (T : Nat) (w : World) :
    (Timer_Update_body (rearmHandlers i.val T) i w).TimerTable i =
        rearmSlot T (w.TimerTable i) ∧
      handlerCallsFor i.val (Timer_Update_body (rearmHandlers i.val T) i w).trace =
        handlerCallsFor i.val w.trace ++
          (if expires (tickOf w i) then [(w.TimerTable i).TimerHandler] else []) := by
  by_cases he : expires (tickOf w i)
  · have hs : ∀ x : World, rearmHandlers i.val T (w.TimerTable i).TimerHandler i.val x
        = Timer_Start i.val T x := by
      intro x
      simp only [rearmHandlers, if_true]
    have hword : (TIMER_CREATED_MASK ||| (0x8000 + T % 16384)) % 65536
        = 0xC000 + T % 16384 := by
      have e := start_word_created TIMER_CREATED_MASK (T % 16384) (by decide)
        (Nat.mod_lt _ (by decide))
      have e0 : TIMER_CREATED_MASK % 16384 = 0 := by decide
      rw [e0, Nat.zero_or] at e
      exact e
    rw [Timer_Update_body_expiring _ i w he, hs, Timer_Start_in_range, handlerEntry_eq i w he]
    have he2 : expires (w.TimerTable i).TimeoutTick := he
    refine ⟨?_, ?_⟩
    · simp only [tickOf, Function.update_same, rearmSlot, if_pos he2, hword]
    · simp [handlerCallsFor, handlerCallWith, List.filterMap_append, he]
  · have he2 : ¬ expires (w.TimerTable i).TimeoutTick := he
    rw [Timer_Update_body_not_expiring _ i w he, Timer_Update_body_inert]
    refine ⟨?_, ?_⟩
    · simp only [Function.update_same, rearmSlot, if_neg he2]
    · simp only [handlerCallsFor_append, handlerCallsFor_slotEvents, he2, and_false, if_false,
        if_neg he]

/-- The loop of `Timer_Update` with re-arming handlers, seen from slot `i`. -/
theorem Timer_Update_fold_rearm (i : Fin MAX_TIMERS) (T : Nat) (l : List (Fin MAX_TIMERS))
    (hl : l.Nodup) (w : World) :
    (l.foldl (fun acc idx => Timer_Update_body (rearmHandlers i.val T) idx acc) w).TimerTable i =
        (if i ∈ l then rearmSlot T (w.TimerTable i) else w.TimerTable i) ∧
      handlerCallsFor i.val
          (l.foldl (fun acc idx => Timer_Update_body (rearmHandlers i.val T) idx acc) w).trace =
        handlerCallsFor i.val w.trace ++
          (if i ∈ l ∧ expires (tickOf w i) then [(w.TimerTable i).TimerHandler] else []) := by
  induction l generalizing w with
  | nil => simp
  | cons j l ih =>
    have hj : j ∉ l := (List.nodup_cons.mp hl).1
    obtain ⟨i1, i2⟩ := ih (List.nodup_cons.mp hl).2
      (Timer_Update_body (rearmHandlers i.val T) j w)
    rw [List.foldl_cons, i1, i2]
    by_cases hji : j = i
    · subst hji
      obtain ⟨b1, b2⟩ := Timer_Update_body_rearm_self j T w
      simp only [hj, if_false, false_and, List.append_nil, List.mem_cons, true_or, if_true,
        true_and, b1, b2]
    · obtain ⟨b1, b2⟩ := Timer_Update_body_rearm_frame i j hji T w
      have hij : ¬ i = j := fun e => hji e.symm
      simp only [tickOf, b1, b2, List.mem_cons, hij, false_or]
      exact ⟨trivial, trivial⟩

/-- One `Timer_Update` with re-arming handlers, seen from slot `i`. -/
theorem Timer_Update_rearm (i : Fin MAX_TIMERS) (T : Nat) (w : World) :
    (Timer_Update (rearmHandlers i.val T) w).TimerTable i = rearmSlot T (w.TimerTable i) ∧
      handlerCallsFor i.val (Timer_Update (rearmHandlers i.val T) w).trace =
        handlerCallsFor i.val w.trace ++
          (if expires (tickOf w i) then [(w.TimerTable i).TimerHandler] else []) := by
  obtain ⟨f1, f2⟩ := Timer_Update_fold_rearm i T (List.finRange MAX_TIMERS)
    (List.nodup_finRange _) w
  unfold Timer_Update
  rw [f1, f2]
  simp only [List.mem_finRange, if_true, true_and]

/-- With re-arming handlers too, a created, active slot with countdown
`c > 0` has its handler called on the `c`-th following `Timer_Update` and on
none before. -/
theorem fires_on_tick_rearm (i : Fin MAX_TIMERS) (T c : Nat) (w : World) (h0 : 0 < c)
    (hc : c < 16384) (hw : tickOf w i = 0xC000 + c) :
    (∀ k, k < c →
        handlerCallsFor i.val (Timer_Update_n (rearmHandlers i.val T) k w).trace =
          handlerCallsFor i.val w.trace) ∧
      handlerCallsFor i.val (Timer_Update_n (rearmHandlers i.val T) c w).trace =
        handlerCallsFor i.val w.trace ++ [(w.TimerTable i).TimerHandler] := by
  induction c generalizing w with
  | zero => exact absurd h0 (Nat.lt_irrefl 0)
  | succ c ih =>
    obtain ⟨u1, u2⟩ := Timer_Update_rearm i T w
    by_cases hc0 : c = 0
    · subst hc0
      rw [hw] at u2
      refine ⟨?_, ?_⟩
      · intro k hk
        have hk0 : k = 0 := by omega
        subst hk0
        rfl
      · show handlerCallsFor i.val (Timer_Update (rearmHandlers i.val T) w).trace = _
        rw [u2, if_pos tickWord_last.2]
    · obtain ⟨t1, t2⟩ := tickWord_running (c + 1) (by omega) hc
      have hw2 : (w.TimerTable i).TimeoutTick = 0xC000 + (c + 1) := hw
      rw [hw] at u2
      rw [if_neg t2, List.append_nil] at u2
      have hslot : (Timer_Update (rearmHandlers i.val T) w).TimerTable i
          = { w.TimerTable i with TimeoutTick := 0xC000 + c } := by
        rw [u1]
        unfold rearmSlot tickSlot
        rw [hw2, if_neg t2, t1]
        rfl
      have hw1 : tickOf (Timer_Update (rearmHandlers i.val T) w) i = 0xC000 + c := by
        unfold tickOf
        rw [hslot]
      obtain ⟨i1, i2⟩ := ih (Timer_Update (rearmHandlers i.val T) w) (by omega) (by omega) hw1
      refine ⟨?_, ?_⟩
      · intro k hk
        cases k with
        | zero => rfl
        | succ k =>
          show handlerCallsFor i.val (Timer_Update_n (rearmHandlers i.val T) k
            (Timer_Update (rearmHandlers i.val T) w)).trace = _
          rw [i1 k (by omega), u2]
      · show handlerCallsFor i.val (Timer_Update_n (rearmHandlers i.val T) c
          (Timer_Update (rearmHandlers i.val T) w)).trace = _
        rw [i2, u2, hslot]

/-- C12: re-arming from inside the handler.  Whenever the loop body of
`Timer_Update` expires slot `i`, whatever the handlers do, the handler of the
slot is run with argument `i` from a world in which slot `i` is created, not
active, with countdown 0, the call being the last event recorded.  If a
handler called with argument `i` calls `Timer_Start i T` with `0 < T ≤ 16383`
and the other handlers do nothing, then after a `Timer_Update` that expires
slot `i` the slot is created and active with countdown `T`, one call of its
handler is recorded, and the next call of its handler is on the `T`-th
following `Timer_Update`. -/
theorem C12_handler_rearms_slot (env : HandlerEnv) (w : World) (i : Fin MAX_TIMERS) (T : Nat)
    (hT0 : 0 < T) (hT : T ≤ 16383) (he : expires (tickOf w i)) :
    (Timer_Update_body env i w =
        env (w.TimerTable i).TimerHandler i.val (handlerEntry i w) ∧
      isCreated (tickOf (handlerEntry i w) i) ∧
      ¬ isActive (tickOf (handlerEntry i w) i) ∧
      countdown (tickOf (handlerEntry i w) i) = 0 ∧
      (handlerEntry i w).trace.getLast? =
        some (Event.handler (w.TimerTable i).TimerHandler i.val)) ∧
    (isCreated (tickOf (Timer_Update (rearmHandlers i.val T) w) i) ∧
      isActive (tickOf (Timer_Update (rearmHandlers i.val T) w) i) ∧
      countdown (tickOf (Timer_Update (rearmHandlers i.val T) w) i) = T ∧
      handlerCallsFor i.val (Timer_Update (rearmHandlers i.val T) w).trace =
        handlerCallsFor i.val w.trace ++ [(w.TimerTable i).TimerHandler] ∧
      (∀ k, k < T →
        handlerCallsFor i.val (Timer_Update_n (rearmHandlers i.val T) k
            (Timer_Update (rearmHandlers i.val T) w)).trace =
          handlerCallsFor i.val (Timer_Update (rearmHandlers i.val T) w).trace) ∧
      handlerCallsFor i.val (Timer_Update_n (rearmHandlers i.val T) T
          (Timer_Update (rearmHandlers i.val T) w)).trace =
        handlerCallsFor i.val (Timer_Update (rearmHandlers i.val T) w).trace ++
          [(w.TimerTable i).TimerHandler]) := by
  have hmod : T % 16384 = T := Nat.mod_eq_of_lt (by omega)
  have he2 : expires (w.TimerTable i).TimeoutTick := he
  have hentry : tickOf (handlerEntry i w) i = TIMER_CREATED_MASK := by
    rw [handlerEntry_eq i w he]
    simp only [tickOf, Function.update_same]
  obtain ⟨u1, u2⟩ := Timer_Update_rearm i T w
  have hslot : (Timer_Update (rearmHandlers i.val T) w).TimerTable i
      = { w.TimerTable i with TimeoutTick := 0xC000 + T } := by
    rw [u1]
    unfold rearmSlot
    rw [if_pos he2, hmod]
  have hw1 : tickOf (Timer_Update (rearmHandlers i.val T) w) i = 0xC000 + T := by
    unfold tickOf
    rw [hslot]
  obtain ⟨f1, f2⟩ := fires_on_tick_rearm i T T (Timer_Update (rearmHandlers i.val T) w)
    hT0 (by omega) hw1
  rw [hslot] at f2
  refine ⟨⟨Timer_Update_body_expiring env i w he, ?_, ?_, ?_, ?_⟩, ?_, ?_, ?_, ?_, f1, f2⟩
  · rw [hentry]; decide
  · rw [hentry]; decide
  · rw [hentry]; decide
  · rw [handlerEntry_eq i w he]
    simp
  · rw [hw1, isCreated_iff]
    omega
  · rw [hw1, isActive_iff]
    omega
  · rw [hw1, countdown_eq]
    omega
  · rw [u2, if_pos he]

/-- C12 on a running timer with 1 tick left whose handler re-arms it with 3. -/
theorem C12_handler_rearms_slot_witness :
    countdown (tickOf (Timer_Update (rearmHandlers 2 3) (constWorld ⟨0xC001, 9⟩)) 2) = 3 :=
  (C12_handler_rearms_slot inertHandlers (constWorld ⟨0xC001, 9⟩) 2 3 (by decide) (by decide)
    (by show expires 0xC001; decide)).2.2.2.1

end SoftTimers
